import Mathlib

/-
Verification of the paginated fetch-and-aggregate scripts of the
BigDataProject repository (DMI weather-data collection).

Shallow embedding notes:
* JSON numbers (measurement values, coordinates) are modelled as `Int`.
  The scripts only compare them and add them; no claim depends on
  floating-point rounding.
* A feature's `properties` bag and its `stationId` key are collapsed into an
  `Option String`: `none` models a feature that is skipped by
  `if not props or 'stationId' not in props: continue`.
* `geometry` is modelled as `Option (Int × Int)` holding the
  `[longitude, latitude]` pair; `none` models a feature whose geometry is
  absent or whose coordinate list is empty (both are falsy in
  `if geometry and geometry.get('coordinates')`).
* Python dictionaries keyed by station id (`defaultdict`) are modelled as
  total functions `String → StationInfo` returning the default record; the
  membership test `station_id in station_info` is modelled as
  `(m sid).stationId ≠ none`, which holds exactly for the keys materialised
  during aggregation, because the initialisation branch always sets
  `stationId` on first contact.
* The `while` loops are modelled with an explicit fuel parameter; running out
  of fuel is flagged by the artificial outcome `NOFUEL`, which the theorems
  rule out by supplying enough fuel.
-/

/-- Termination states of the pagination loop, following the spec's state
machine: `DONE` for an empty or short page, `ABORTED` for a transport error
or for hitting the `max_offset` safety ceiling.  `NOFUEL` is an artifact of
the fuel-based embedding and never occurs for adequate fuel. -/
inductive Outcome where
  | DONE
  | ABORTED
  | NOFUEL
deriving DecidableEq

/-- One update of a running first-seen date:
`if not info['first_date'] or from_date < info['first_date']`.
Python truthiness makes both `None` and the empty string count as unset. -/
def firstStep (cur : Option String) (d : String) : Option String :=
  match cur with
  | none => some d
  | some c => if c = "" ∨ d < c then some d else some c

/-- One update of a running last-seen date:
`if not info['last_date'] or from_date > info['last_date']`. -/
def lastStep (cur : Option String) (d : String) : Option String :=
  match cur with
  | none => some d
  | some c => if c = "" ∨ c < d then some d else some c

/-- One update of a running minimum:
`if info['min'] is None or value < info['min']`. -/
def minStep (cur : Option Int) (v : Int) : Option Int :=
  match cur with
  | none => some v
  | some c => if v < c then some v else some c

/-- One update of a running maximum:
`if info['max'] is None or value > info['max']`. -/
def maxStep (cur : Option Int) (v : Int) : Option Int :=
  match cur with
  | none => some v
  | some c => if c < v then some v else some c

namespace Precip

/-- One decoded feature of a `stationValue` page, as read by
`get_precipitation_stations_csv` in `precipitation.py`. -/
structure Obs where
  stationId : Option String
  geometry : Option (Int × Int)
  fromDate : Option String
  value : Option Int
deriving DecidableEq

/-- The per-station accumulator dictionary of `precipitation.py`
(lines 16-32), with the fields the script maintains. -/
structure StationInfo where
  stationId : Option String
  name : Option String
  latitude : Option Int
  longitude : Option Int
  country : Option String
  status : Option String
  validFrom : Option String
  validTo : Option String
  measures_precipitation : Bool
  precipitation_observations : Nat
  first_precipitation_date : Option String
  last_precipitation_date : Option String
  min_precipitation : Option Int
  max_precipitation : Option Int
  total_precipitation_sample : Int
deriving DecidableEq

/-- The `defaultdict` default value (lines 16-32 of `precipitation.py`). -/
def defaultInfo : StationInfo where
  stationId := none
  name := none
  latitude := none
  longitude := none
  country := none
  status := none
  validFrom := none
  validTo := none
  measures_precipitation := true
  precipitation_observations := 0
  first_precipitation_date := none
  last_precipitation_date := none
  min_precipitation := none
  max_precipitation := none
  total_precipitation_sample := 0

/-- Folding one observation into one station's record
(`precipitation.py` lines 82-124).  The Python code mutates disjoint fields
in sequence; this definition computes every field from the incoming record,
which is extensionally the same.  The coordinate branches mirror lines
83-93: initialisation when `stationId` is still `None`, backfill when the
feature carries geometry and `latitude` is still `None`, otherwise
untouched. -/
def updateStation (info : StationInfo) (sid : String) (o : Obs) : StationInfo where
  stationId := if info.stationId = none then some sid else info.stationId
  name := info.name
  latitude :=
    if info.stationId = none then o.geometry.map Prod.snd
    else if o.geometry ≠ none ∧ info.latitude = none then o.geometry.map Prod.snd
    else info.latitude
  longitude :=
    if info.stationId = none then o.geometry.map Prod.fst
    else if o.geometry ≠ none ∧ info.latitude = none then o.geometry.map Prod.fst
    else info.longitude
  country := info.country
  status := info.status
  validFrom := info.validFrom
  validTo := info.validTo
  measures_precipitation := info.measures_precipitation
  precipitation_observations := info.precipitation_observations + 1
  first_precipitation_date :=
    match o.fromDate with
    | some d =>
        if d = "" then info.first_precipitation_date
        else firstStep info.first_precipitation_date d
    | none => info.first_precipitation_date
  last_precipitation_date :=
    match o.fromDate with
    | some d =>
        if d = "" then info.last_precipitation_date
        else lastStep info.last_precipitation_date d
    | none => info.last_precipitation_date
  min_precipitation :=
    match o.value with
    | some v => minStep info.min_precipitation v
    | none => info.min_precipitation
  max_precipitation :=
    match o.value with
    | some v => maxStep info.max_precipitation v
    | none => info.max_precipitation
  total_precipitation_sample :=
    match o.value with
    | some v => info.total_precipitation_sample + v
    | none => info.total_precipitation_sample

/-- Folding one feature into the station map: features without properties or
without a `stationId` key are skipped (`precipitation.py` lines 68-69). -/
def foldFeature (m : String → StationInfo) (o : Obs) : String → StationInfo :=
  match o.stationId with
  | none => m
  | some sid => fun s => if s = sid then updateStation (m sid) sid o else m s

/-- Folding one page (`for feature in features`). -/
def foldPage (m : String → StationInfo) (page : List Obs) : String → StationInfo :=
  page.foldl foldFeature m

/-- Result of one run of the pagination loop: the accumulated station map,
the number of page requests issued, the offsets at which they were issued
(in order), and the termination state. -/
structure LoopResult where
  station_info : String → StationInfo
  requests : Nat
  offsets : List Nat
  outcome : Outcome

/-- The pagination loop of `get_precipitation_stations_csv`
(`precipitation.py` lines 42-143), parametric in the page size `limit` and
the `max_offset` safety ceiling (the script instantiates them with 300000
and 1000000; the literal 300000 plays both roles of request page size and
short-page test).  `fetch` models one `requests.get` round trip:
`Except.error` is a raised `RequestException` (both the 400 branch and the
generic branch of the handler `break`, so the distinction is dropped),
`Except.ok` is the decoded `features` list.  One unit of fuel is consumed
per iteration; each iteration issues exactly one request. -/
def paginateGo (fetch : Nat → Except Unit (List Obs)) (limit max_offset : Nat) :
    Nat → Nat → (String → StationInfo) → Nat → List Nat → LoopResult
  | 0, _, m, reqs, offs => ⟨m, reqs, offs, .NOFUEL⟩
  | fuel + 1, offset, m, reqs, offs =>
    if offset < max_offset then
      match fetch offset with
      | .error _ => ⟨m, reqs + 1, offs ++ [offset], .ABORTED⟩
      | .ok features =>
        if features.length = 0 then ⟨m, reqs + 1, offs ++ [offset], .DONE⟩
        else
          let m2 := foldPage m features
          if features.length < limit then ⟨m2, reqs + 1, offs ++ [offset], .DONE⟩
          else
            paginateGo fetch limit max_offset fuel (offset + limit) m2 (reqs + 1)
              (offs ++ [offset])
    else ⟨m, reqs, offs, .ABORTED⟩

/-- The loop exactly as the script runs it: `limit = 300000`,
`max_offset = 1000000`, starting at offset 0 with a fresh defaultdict. -/
def get_precipitation_stations_loop (fetch : Nat → Except Unit (List Obs))
    (fuel : Nat) : LoopResult :=
  paginateGo fetch 300000 1000000 fuel 0 (fun _ => defaultInfo) 0 []

/-- Observation with geometry used by the C6 scenario. -/
def obsWithGeom : Obs := ⟨some "s", some (1, 2), none, none⟩

/-- Observation without geometry used by the C6 scenario. -/
def obsNoGeom : Obs := ⟨some "s", none, none, none⟩

/-- Observation of a given value for a given station, with no geometry and no
timestamp, as used by the value-statistics scenarios. -/
def valObs (sid : String) (v : Int) : Obs := ⟨some sid, none, none, some v⟩

/-- Page 1 of the C1 scenario: stationA value 5, stationB value 2. -/
def scenarioPage1 : List Obs := [valObs "stationA" 5, valObs "stationB" 2]

/-- Page 2 of the C1 scenario: stationA value 9 (short page). -/
def scenarioPage2 : List Obs := [valObs "stationA" 9]

/-- Page-fetch function of the C1 scenario (page size 2): a full page at
offset 0 and a short page at offset 2. -/
def scenarioFetch : Nat → Except Unit (List Obs) :=
  fun off =>
    if off = 0 then .ok scenarioPage1
    else if off = 2 then .ok scenarioPage2
    else .ok []

/-- A feature without a `stationId` key: it is counted in `len(features)`
but skipped by the fold.  Used to build full-size pages. -/
def nullObs : Obs := ⟨none, none, none, none⟩

/-- Page-fetch function presenting five pages shaped
`[limit, limit, limit, limit, 0]` for the script's `limit = 300000`:
full pages at offsets 0..900000 and an empty (short) page at 1200000. -/
def cexFetch : Nat → Except Unit (List Obs) :=
  fun off =>
    if off = 1200000 then .ok []
    else .ok (List.replicate 300000 nullObs)

/-- The nonempty `from` timestamps carried by one station's observations, in
processing order: exactly the dates that pass `props.get('from')` followed
by the truthiness guard `if from_date:` for features with that
`stationId`.  Stated from the spec's words, to be compared with the fold's
running first/last fields. -/
def datesOf (l : List Obs) (sid : String) : List String :=
  l.filterMap (fun o =>
    match o.stationId, o.fromDate with
    | some s, some d => if s = sid ∧ d ≠ "" then some d else none
    | _, _ => none)

/-- A dated observation used by the C9 witness. -/
def c9Obs : Obs := ⟨some "s", none, some "2020-03-04T00:00+02:00", some 1⟩

end Precip

namespace Heating

/-- Result of one run of the month-fetch loop of `fetch_month_data` in
`Combined_Heating_Data_2022-2025.py`: the accumulated records, the number
of batch requests issued, the offsets at which they were issued, and the
termination state. -/
structure FetchResult (α : Type) where
  all_records : List α
  requests : Nat
  offsets : List Nat
  outcome : Outcome

/-- The `while True` pagination loop of `fetch_month_data`
(`Combined_Heating_Data_2022-2025.py` lines 34-67), polymorphic in the
record type since the loop only concatenates the decoded `records` lists.
There is no `max_offset` ceiling in this loop; the fuel is the only bound of
the embedding.  `Except.error` models an exception during the fetch, on
which the handler breaks out of the loop keeping `all_records`. -/
def fetchMonthGo {α : Type} (fetch : Nat → Except Unit (List α)) (limit : Nat) :
    Nat → Nat → List α → Nat → List Nat → FetchResult α
  | 0, _, acc, reqs, offs => ⟨acc, reqs, offs, .NOFUEL⟩
  | fuel + 1, offset, acc, reqs, offs =>
    match fetch offset with
    | .error _ => ⟨acc, reqs + 1, offs ++ [offset], .ABORTED⟩
    | .ok records =>
      if records.length = 0 then ⟨acc, reqs + 1, offs ++ [offset], .DONE⟩
      else
        let acc2 := acc ++ records
        if records.length < limit then ⟨acc2, reqs + 1, offs ++ [offset], .DONE⟩
        else
          fetchMonthGo fetch limit fuel (offset + limit) acc2 (reqs + 1)
            (offs ++ [offset])

/-- The loop as `fetch_month_data` runs it: `limit = 20000`, starting at
offset 0 with an empty `all_records`. -/
def fetch_month_data {α : Type} (fetch : Nat → Except Unit (List α))
    (fuel : Nat) : FetchResult α :=
  fetchMonthGo fetch 20000 fuel 0 [] 0 []

end Heating

namespace Wind

/-- The five wind parameters processed by `get_wind_stations_csv`
(`wind.py` lines 24-30). -/
inductive WParam where
  | mean_wind_speed
  | max_wind_speed_3sec
  | max_wind_speed_10min
  | mean_wind_dir
  | mean_wind_dir_min0
deriving DecidableEq

/-- The parameter identifier string sent to the API. -/
def WParam.idName : WParam → String
  | .mean_wind_speed => "mean_wind_speed"
  | .max_wind_speed_3sec => "max_wind_speed_3sec"
  | .max_wind_speed_10min => "max_wind_speed_10min"
  | .mean_wind_dir => "mean_wind_dir"
  | .mean_wind_dir_min0 => "mean_wind_dir_min0"

/-- The Python substring test `'speed' in param_id`, evaluated on the five
parameter identifiers (`wind.py` line 137). -/
def WParam.hasSpeed : WParam → Bool
  | .mean_wind_speed => true
  | .max_wind_speed_3sec => true
  | .max_wind_speed_10min => true
  | .mean_wind_dir => false
  | .mean_wind_dir_min0 => false

/-- One decoded feature of a wind `stationValue` page, tagged with the
parameter pass it belongs to (`wind.py` runs one pagination pass per
parameter over the same accumulator, so an observation source is fully
described by the feature plus its `parameterId`). -/
structure WObs where
  paramId : WParam
  stationId : Option String
  geometry : Option (Int × Int)
  fromDate : Option String
  value : Option Int
deriving DecidableEq

/-- The per-station accumulator dictionary of `wind.py` (lines 33-53). -/
structure WindInfo where
  stationId : Option String
  name : Option String
  latitude : Option Int
  longitude : Option Int
  country : Option String
  status : Option String
  validFrom : Option String
  validTo : Option String
  wind_parameters : Finset String
  total_wind_observations : Nat
  mean_wind_speed_obs : Nat
  max_wind_speed_3sec_obs : Nat
  max_wind_speed_10min_obs : Nat
  mean_wind_dir_obs : Nat
  mean_wind_dir_min0_obs : Nat
  first_wind_date : Option String
  last_wind_date : Option String
  max_wind_speed_recorded : Option Int
  min_wind_speed_recorded : Option Int

/-- The `defaultdict` default value (`wind.py` lines 33-53). -/
def defaultInfo : WindInfo where
  stationId := none
  name := none
  latitude := none
  longitude := none
  country := none
  status := none
  validFrom := none
  validTo := none
  wind_parameters := {}
  total_wind_observations := 0
  mean_wind_speed_obs := 0
  max_wind_speed_3sec_obs := 0
  max_wind_speed_10min_obs := 0
  mean_wind_dir_obs := 0
  mean_wind_dir_min0_obs := 0
  first_wind_date := none
  last_wind_date := none
  max_wind_speed_recorded := none
  min_wind_speed_recorded := none

/-- The first-date update under the truthiness guard `if from_date:`
(`wind.py` lines 128-131), per field. -/
def dateStepF (cur : Option String) (od : Option String) : Option String :=
  match od with
  | some d => if d = "" then cur else firstStep cur d
  | none => cur

/-- Last-date counterpart of `dateStepF` (`wind.py` lines 132-134). -/
def dateStepL (cur : Option String) (od : Option String) : Option String :=
  match od with
  | some d => if d = "" then cur else lastStep cur d
  | none => cur

/-- The speed-statistics update under the guard
`if wind_value is not None and 'speed' in param_id` (`wind.py` lines
137-140). -/
def speedStepMax (cur : Option Int) (ov : Option Int) (speed : Bool) : Option Int :=
  match ov with
  | some v => if speed then maxStep cur v else cur
  | none => cur

/-- Minimum counterpart of `speedStepMax` (`wind.py` lines 142-144). -/
def speedStepMin (cur : Option Int) (ov : Option Int) (speed : Bool) : Option Int :=
  match ov with
  | some v => if speed then minStep cur v else cur
  | none => cur

/-- `station_info[sid][param_id + '_obs'] += 1` hits exactly one of the five
fixed counter keys; per counter field this is a conditional increment. -/
def obsInc (p q : WParam) : Nat := if p = q then 1 else 0

/-- Folding one observation into one station's record (`wind.py` lines
87-150), field by field (the Python code mutates disjoint fields in
sequence; each output field is computed from the incoming record).  The
coordinate branches mirror lines 108-119, the parameter set line 122, the
dates lines 128-134, the speed statistics lines 136-144, the counters
lines 146-148. -/
def updateStation (info : WindInfo) (sid : String) (o : WObs) : WindInfo where
  stationId := if info.stationId = none then some sid else info.stationId
  name := info.name
  latitude :=
    if info.stationId = none then o.geometry.map Prod.snd
    else if o.geometry ≠ none ∧ info.latitude = none then o.geometry.map Prod.snd
    else info.latitude
  longitude :=
    if info.stationId = none then o.geometry.map Prod.fst
    else if o.geometry ≠ none ∧ info.latitude = none then o.geometry.map Prod.fst
    else info.longitude
  country := info.country
  status := info.status
  validFrom := info.validFrom
  validTo := info.validTo
  wind_parameters := insert o.paramId.idName info.wind_parameters
  total_wind_observations := info.total_wind_observations + 1
  mean_wind_speed_obs := info.mean_wind_speed_obs + obsInc o.paramId .mean_wind_speed
  max_wind_speed_3sec_obs := info.max_wind_speed_3sec_obs + obsInc o.paramId .max_wind_speed_3sec
  max_wind_speed_10min_obs := info.max_wind_speed_10min_obs + obsInc o.paramId .max_wind_speed_10min
  mean_wind_dir_obs := info.mean_wind_dir_obs + obsInc o.paramId .mean_wind_dir
  mean_wind_dir_min0_obs := info.mean_wind_dir_min0_obs + obsInc o.paramId .mean_wind_dir_min0
  first_wind_date := dateStepF info.first_wind_date o.fromDate
  last_wind_date := dateStepL info.last_wind_date o.fromDate
  max_wind_speed_recorded := speedStepMax info.max_wind_speed_recorded o.value o.paramId.hasSpeed
  min_wind_speed_recorded := speedStepMin info.min_wind_speed_recorded o.value o.paramId.hasSpeed

/-- Folding one feature into the station map: features without properties or
without a `stationId` key are skipped (`wind.py` lines 93-94). -/
def foldFeature (m : String → WindInfo) (o : WObs) : String → WindInfo :=
  match o.stationId with
  | none => m
  | some sid => fun s => if s = sid then updateStation (m sid) sid o else m s

/-- Folding a list of observation sources (pages and parameter passes
flattened into one sequence, in processing order). -/
def foldObs (m : String → WindInfo) (l : List WObs) : String → WindInfo :=
  l.foldl foldFeature m

/-- Erase the coordinate fields.  C7's order-independence holds for every
field except the first-seen coordinates. -/
def stripCoords (info : WindInfo) : WindInfo :=
  { info with latitude := none, longitude := none }

/-- One record of the station-metadata endpoint as read by the join
(`wind.py` lines 195-206): each field is a `props.get(...)`; `none` stands
for an absent key (an explicit JSON null is not distinguished from an
absent key in this embedding). -/
structure MetaRec where
  stationId : Option String
  name : Option String
  country : Option String
  status : Option String
  validFrom : Option String
  validTo : Option String
deriving DecidableEq

/-- The metadata join of `wind.py` (lines 195-207): for every metadata
record whose `stationId` is a key of the aggregated dictionary, overwrite
the five metadata fields, with `props.get('name', 'Unknown')` defaulting to
`"Unknown"` for keys missing from the metadata record.  Dictionary
membership is `(m sid).stationId ≠ none` (see the header note). -/
def joinStep (acc : String → WindInfo) (r : MetaRec) : String → WindInfo :=
  match r.stationId with
  | none => acc
  | some sid =>
    if (acc sid).stationId ≠ none then
      fun s =>
        if s = sid then
          { acc sid with
            name := some (r.name.getD "Unknown")
            country := some (r.country.getD "Unknown")
            status := some (r.status.getD "Unknown")
            validFrom := r.validFrom
            validTo := r.validTo }
        else acc s
    else acc

/-- The whole join pass: `for feature in all_stations_data.get('features', [])`. -/
def joinMeta (m : String → WindInfo) (metas : List MetaRec) : String → WindInfo :=
  metas.foldl joinStep m

/-- Erase the five join-owned metadata fields; everything that remains —
station id, coordinates, counters, parameter set, dates, speed extremes —
is what C8 calls the accumulated statistics. -/
def stripMeta (info : WindInfo) : WindInfo :=
  { info with
    name := none
    country := none
    status := none
    validFrom := none
    validTo := none }

/-- The output-row fields relevant to C8, built as in `wind.py` lines
223-249.  Crucially, `info.get('name', 'Unknown')` (and likewise country,
status) returns the stored value because those keys are always present —
they are initialised to `None` in the defaultdict — so the `'Unknown'`
default is dead code and the row simply carries the stored optional
value. -/
structure WindRow where
  station_id : Option String
  name : Option String
  country : Option String
  status : Option String
  valid_from : Option String
  valid_to : Option String
  total_wind_observations : Nat
  first_wind_date : Option String
  last_wind_date : Option String
  max_wind_speed_recorded_ms : Option Int
  min_wind_speed_recorded_ms : Option Int
deriving DecidableEq

/-- Row construction of `wind.py` lines 223-249 (claim-relevant fields). -/
def buildRow (info : WindInfo) : WindRow where
  station_id := info.stationId
  name := info.name
  country := info.country
  status := info.status
  valid_from := info.validFrom
  valid_to := info.validTo
  total_wind_observations := info.total_wind_observations
  first_wind_date := info.first_wind_date
  last_wind_date := info.last_wind_date
  max_wind_speed_recorded_ms := info.max_wind_speed_recorded
  min_wind_speed_recorded_ms := info.min_wind_speed_recorded

/-- Observation with geometry (1, 2) for the C7 counterexample. -/
def cexObsG1 : WObs := ⟨.mean_wind_speed, some "s", some (1, 2), none, none⟩

/-- Observation with geometry (3, 4) for the C7 counterexample. -/
def cexObsG2 : WObs := ⟨.mean_wind_speed, some "s", some (3, 4), none, none⟩

/-- A single wind observation for station 06030, used by the C8
counterexample. -/
def c8Obs : WObs := ⟨.mean_wind_speed, some "06030", none, none, some 5⟩

/-- A metadata record for station 06030, used by the C8 witness. -/
def c8Meta : MetaRec :=
  ⟨some "06030", some "Aalborg", some "Denmark", some "Active", none, none⟩

end Wind

namespace Sun

/-- The per-station accumulator dictionary of `sunlight.py` (lines 17-30).
Unlike `wind.py`, it does NOT pre-initialise `country`, `status`,
`validFrom`, `validTo` — those keys exist only if the metadata join adds
them — while `name` IS pre-initialised to `None`.  The four join-only keys
are modelled as `Option` fields that only the join sets (`none` = key
absent). -/
structure SunInfo where
  stationId : Option String
  name : Option String
  latitude : Option Int
  longitude : Option Int
  measures_sunshine : Bool
  measures_radiation : Bool
  sunshine_observations : Nat
  radiation_observations : Nat
  first_sunshine_date : Option String
  last_sunshine_date : Option String
  first_radiation_date : Option String
  last_radiation_date : Option String
  country : Option String
  status : Option String
  validFrom : Option String
  validTo : Option String
deriving DecidableEq

/-- The `defaultdict` default value (`sunlight.py` lines 17-30), with the
four join-only keys absent. -/
def defaultInfo : SunInfo where
  stationId := none
  name := none
  latitude := none
  longitude := none
  measures_sunshine := false
  measures_radiation := false
  sunshine_observations := 0
  radiation_observations := 0
  first_sunshine_date := none
  last_sunshine_date := none
  first_radiation_date := none
  last_radiation_date := none
  country := none
  status := none
  validFrom := none
  validTo := none

/-- The metadata join of `sunlight.py` (lines 140-149), same shape as the
wind join; it sets `name` (with the `'Unknown'` fallback for a missing
metadata key) and adds the `country`, `status`, `validFrom`, `validTo`
keys. -/
def joinStep (acc : String → SunInfo) (r : Wind.MetaRec) : String → SunInfo :=
  match r.stationId with
  | none => acc
  | some sid =>
    if (acc sid).stationId ≠ none then
      fun s =>
        if s = sid then
          { acc sid with
            name := some (r.name.getD "Unknown")
            country := some (r.country.getD "Unknown")
            status := some (r.status.getD "Unknown")
            validFrom := r.validFrom
            validTo := r.validTo }
        else acc s
    else acc

/-- The whole join pass of `sunlight.py` lines 140-149. -/
def joinMeta (m : String → SunInfo) (metas : List Wind.MetaRec) : String → SunInfo :=
  metas.foldl joinStep m

/-- Erase the five join-owned metadata fields, keeping the accumulated
statistics. -/
def stripMeta (info : SunInfo) : SunInfo :=
  { info with
    name := none
    country := none
    status := none
    validFrom := none
    validTo := none }

/-- The output-row fields relevant to C8, built as in `sunlight.py` lines
162-183: `info.get('name', 'Unknown')` returns the stored value because the
`name` key is pre-initialised, but `info.get('country', 'Unknown')` and
`info.get('status', 'Unknown')` really do fall back to `"Unknown"` when the
join never added those keys; `info.get('validFrom')` has no default. -/
structure SunRow where
  station_id : Option String
  name : Option String
  country : String
  status : String
  valid_from : Option String
  valid_to : Option String
  sunshine_observations : Nat
  radiation_observations : Nat
deriving DecidableEq

/-- Row construction of `sunlight.py` lines 162-183 (claim-relevant
fields). -/
def buildRow (info : SunInfo) : SunRow where
  station_id := info.stationId
  name := info.name
  country := info.country.getD "Unknown"
  status := info.status.getD "Unknown"
  valid_from := info.validFrom
  valid_to := info.validTo
  sunshine_observations := info.sunshine_observations
  radiation_observations := info.radiation_observations

end Sun

namespace WindCollect

/-- One decoded feature as read by `collect_wind_data`
(`dmi_wind_collection.py` lines 140-151): only `props.get('from')` and
`props.get('value')` are consulted. -/
structure Feature where
  fromDate : Option String
  value : Option Int
deriving DecidableEq

/-- One output record (`all_data.append({...})`, lines 146-151).  The
appended `mean_wind_speed` is `props.get('value')` itself, stored under a
guard that it is not None. -/
structure WindRec where
  timeObserved : Option String
  stationId : String
  stationName : String
  mean_wind_speed : Option Int
deriving DecidableEq

/-- The collection loop of `collect_wind_data` (`dmi_wind_collection.py`
lines 123-162): for every station and every month 1..12, fetch the month's
features (`fetch_station_month` catches every error and returns `[]`, so
the fetch function is total) and append one record per feature whose
`value` is not None.  The `stations_with_data` console counter and the
`time.sleep` are not modelled. -/
def collect_wind_data (fetch : String → Nat → List Feature)
    (stations : List (String × String)) : List WindRec :=
  stations.foldl
    (fun all_data st =>
      (List.range' 1 12).foldl
        (fun acc month =>
          (fetch st.1 month).foldl
            (fun acc2 feature =>
              match feature.value with
              | some v => acc2 ++ [⟨feature.fromDate, st.1, st.2, some v⟩]
              | none => acc2)
            acc)
        all_data)
    []

/-- Declarative normal form of the collection, following the spec reading:
the non-null-valued features of every station and month, in order, one
record each. -/
def collect_wind_data_spec (fetch : String → Nat → List Feature)
    (stations : List (String × String)) : List WindRec :=
  (stations.map (fun st =>
    ((List.range' 1 12).map (fun month =>
      (fetch st.1 month).filterMap (fun feature =>
        feature.value.map (fun v =>
          (⟨feature.fromDate, st.1, st.2, some v⟩ : WindRec))))).flatten)).flatten

end WindCollect

namespace SunCollect

/-- One decoded feature as read by `collect_sunshine_data`
(`dmi_sunlight_collection.py` lines 110-121). -/
structure Feature where
  fromDate : Option String
  value : Option Int
deriving DecidableEq

/-- One output record (`all_data.append({...})`, lines 116-121), with the
`bright_sunshine` value stored under a non-None guard. -/
structure SunRec where
  timeObserved : Option String
  stationId : String
  stationName : String
  bright_sunshine : Option Int
deriving DecidableEq

/-- The collection loop of `collect_sunshine_data`
(`dmi_sunlight_collection.py` lines 93-131), same shape as the wind
collection. -/
def collect_sunshine_data (fetch : String → Nat → List Feature)
    (stations : List (String × String)) : List SunRec :=
  stations.foldl
    (fun all_data st =>
      (List.range' 1 12).foldl
        (fun acc month =>
          (fetch st.1 month).foldl
            (fun acc2 feature =>
              match feature.value with
              | some v => acc2 ++ [⟨feature.fromDate, st.1, st.2, some v⟩]
              | none => acc2)
            acc)
        all_data)
    []

/-- Declarative normal form of the sunshine collection. -/
def collect_sunshine_data_spec (fetch : String → Nat → List Feature)
    (stations : List (String × String)) : List SunRec :=
  (stations.map (fun st =>
    ((List.range' 1 12).map (fun month =>
      (fetch st.1 month).filterMap (fun feature =>
        feature.value.map (fun v =>
          (⟨feature.fromDate, st.1, st.2, some v⟩ : SunRec))))).flatten)).flatten

end SunCollect

/-- C4: folding two observations with values 3 and 7 for the same station
into a fresh summary yields min=3, max=7, sum=10, count=2, and the result is
identical for both arrival orders (the per-value fold is commutative). -/
theorem C4_two_values_commutative :
    (Precip.foldPage (fun _ => Precip.defaultInfo)
        [Precip.valObs "stationX" 3, Precip.valObs "stationX" 7]) "stationX" =
      { stationId := some "stationX"
        name := none
        latitude := none
        longitude := none
        country := none
        status := none
        validFrom := none
        validTo := none
        measures_precipitation := true
        precipitation_observations := 2
        first_precipitation_date := none
        last_precipitation_date := none
        min_precipitation := some 3
        max_precipitation := some 7
        total_precipitation_sample := 10 } ∧
    (Precip.foldPage (fun _ => Precip.defaultInfo)
        [Precip.valObs "stationX" 7, Precip.valObs "stationX" 3]) "stationX" =
      (Precip.foldPage (fun _ => Precip.defaultInfo)
        [Precip.valObs "stationX" 3, Precip.valObs "stationX" 7]) "stationX" := by
  constructor <;> decide

/-- C5: folding an observation whose value is null increments the station's
observation count by one and leaves min, max and sum unchanged. -/
theorem C5_null_value_only_counts (m : String → Precip.StationInfo)
    (o : Precip.Obs) (sid : String)
    (h1 : o.stationId = some sid) (h2 : o.value = none) :
    ((Precip.foldFeature m o) sid).precipitation_observations
        = (m sid).precipitation_observations + 1 ∧
    ((Precip.foldFeature m o) sid).min_precipitation = (m sid).min_precipitation ∧
    ((Precip.foldFeature m o) sid).max_precipitation = (m sid).max_precipitation ∧
    ((Precip.foldFeature m o) sid).total_precipitation_sample
        = (m sid).total_precipitation_sample := by
  simp [Precip.foldFeature, h1, Precip.updateStation, h2]

/-- Witness for C5 at a concrete observation with a null value. -/
theorem C5_null_value_only_counts_witness :
    ((Precip.foldFeature (fun _ => Precip.defaultInfo)
        ⟨some "s", none, none, none⟩) "s").precipitation_observations
        = ((fun _ => Precip.defaultInfo) "s").precipitation_observations + 1 ∧
    ((Precip.foldFeature (fun _ => Precip.defaultInfo)
        ⟨some "s", none, none, none⟩) "s").min_precipitation
        = ((fun _ => Precip.defaultInfo) "s").min_precipitation ∧
    ((Precip.foldFeature (fun _ => Precip.defaultInfo)
        ⟨some "s", none, none, none⟩) "s").max_precipitation
        = ((fun _ => Precip.defaultInfo) "s").max_precipitation ∧
    ((Precip.foldFeature (fun _ => Precip.defaultInfo)
        ⟨some "s", none, none, none⟩) "s").total_precipitation_sample
        = ((fun _ => Precip.defaultInfo) "s").total_precipitation_sample :=
  C5_null_value_only_counts _ _ _ rfl rfl

/-- C6: coordinates are set by the first observation carrying geometry and
are never overwritten once non-null; whether the geometry arrives on the
first or on a later observation, the final coordinates are the same non-null
pair. -/
theorem C6_coordinates_first_geometry :
    (∀ (m : String → Precip.StationInfo) (o : Precip.Obs) (sid : String),
      o.stationId = some sid →
      (m sid).stationId ≠ none →
      (m sid).latitude ≠ none →
      ((Precip.foldFeature m o) sid).latitude = (m sid).latitude ∧
      ((Precip.foldFeature m o) sid).longitude = (m sid).longitude) ∧
    ((Precip.foldPage (fun _ => Precip.defaultInfo)
        [Precip.obsNoGeom, Precip.obsWithGeom]) "s").latitude = some 2 ∧
    ((Precip.foldPage (fun _ => Precip.defaultInfo)
        [Precip.obsNoGeom, Precip.obsWithGeom]) "s").longitude = some 1 ∧
    ((Precip.foldPage (fun _ => Precip.defaultInfo)
        [Precip.obsWithGeom, Precip.obsNoGeom]) "s").latitude = some 2 ∧
    ((Precip.foldPage (fun _ => Precip.defaultInfo)
        [Precip.obsWithGeom, Precip.obsNoGeom]) "s").longitude = some 1 := by
  refine ⟨?_, by decide, by decide, by decide, by decide⟩
  intro m o sid h1 h2 h3
  simp [Precip.foldFeature, h1, Precip.updateStation, h2, h3]

/-- Witness for C6: the no-overwrite clause applied to a concrete summary
that already has coordinates. -/
theorem C6_coordinates_first_geometry_witness :
    ((Precip.foldFeature
        (fun _ => Precip.updateStation Precip.defaultInfo "s" Precip.obsWithGeom)
        Precip.obsNoGeom) "s").latitude
      = ((fun _ => Precip.updateStation Precip.defaultInfo "s" Precip.obsWithGeom) "s").latitude ∧
    ((Precip.foldFeature
        (fun _ => Precip.updateStation Precip.defaultInfo "s" Precip.obsWithGeom)
        Precip.obsNoGeom) "s").longitude
      = ((fun _ => Precip.updateStation Precip.defaultInfo "s" Precip.obsWithGeom) "s").longitude :=
  C6_coordinates_first_geometry.1 _ _ _ (by decide) (by decide) (by decide)

/-- Splitting off the head of an arithmetic-progression map over `range`. -/
theorem range_map_offset {β : Type} (f : Nat → β) (offset limit j : Nat) :
    (List.range (j + 1)).map (fun i => f (offset + i * limit)) =
      f offset :: (List.range j).map (fun i => f (offset + limit + i * limit)) := by
  rw [List.range_succ_eq_map, List.map_cons, List.map_map]
  refine congrArg₂ _ (by simp) ?_
  apply List.map_congr_left
  intro i _
  show f (offset + (i + 1) * limit) = f (offset + limit + i * limit)
  congr 1
  ring

/-- Running the pagination loop over `j` consecutive full pages advances the
offset by `j * limit`, issues `j` requests, and folds the `j` pages into the
accumulator, provided all `j` offsets are below the ceiling. -/
theorem paginateGo_full_pages (fetch : Nat → Except Unit (List Precip.Obs))
    (limit max_offset : Nat) (hlim : 0 < limit) (pages : Nat → List Precip.Obs) :
    ∀ (j offset fuel reqs : Nat) (m : String → Precip.StationInfo) (offs : List Nat),
      (∀ i, i < j → offset + i * limit < max_offset) →
      (∀ i, i < j → fetch (offset + i * limit) = Except.ok (pages (offset + i * limit)) ∧
          (pages (offset + i * limit)).length = limit) →
      Precip.paginateGo fetch limit max_offset (fuel + j) offset m reqs offs =
        Precip.paginateGo fetch limit max_offset fuel (offset + j * limit)
          (List.foldl Precip.foldPage m
            ((List.range j).map (fun i => pages (offset + i * limit))))
          (reqs + j)
          (offs ++ (List.range j).map (fun i => offset + i * limit)) := by
  intro j
  induction j with
  | zero => intro offset fuel reqs m offs _ _; simp
  | succ j ih =>
    intro offset fuel reqs m offs hceil hfetch
    have h0 : offset < max_offset := by simpa using hceil 0 (Nat.succ_pos j)
    have hf0 := hfetch 0 (Nat.succ_pos j)
    rw [show fuel + (j + 1) = (fuel + j) + 1 from rfl, Precip.paginateGo, if_pos h0]
    simp only [Nat.zero_mul, Nat.add_zero] at hf0
    rw [hf0.1]
    simp only [hf0.2, Nat.pos_iff_ne_zero.mp hlim, if_false, lt_irrefl, if_neg (lt_irrefl limit)]
    have ihx := ih (offset + limit) fuel (reqs + 1) (Precip.foldPage m (pages offset))
        (offs ++ [offset])
        (fun i hi => by
          have := hceil (i + 1) (Nat.succ_lt_succ hi)
          calc offset + limit + i * limit = offset + (i + 1) * limit := by ring
            _ < max_offset := this)
        (fun i hi => by
          have := hfetch (i + 1) (Nat.succ_lt_succ hi)
          have e : offset + (i + 1) * limit = offset + limit + i * limit := by ring
          rw [e] at this
          exact this)
    rw [ihx, range_map_offset (fun x => pages x), range_map_offset (fun x => x)]
    simp only [List.foldl_cons]
    rw [show offset + limit + j * limit = offset + (j + 1) * limit by ring,
      show reqs + 1 + j = reqs + (j + 1) by omega,
      show (offs ++ [offset]) ++ (List.range j).map (fun i => offset + limit + i * limit) =
        offs ++ (offset :: (List.range j).map (fun i => offset + limit + i * limit)) by
          simp]

/-- The heating-data month loop, run over a finite list of pages whose
front pages are all full and whose last page is short, concatenates every
page, issues one request per page at offsets advancing by `limit`, and
terminates in DONE. -/
theorem fetchMonthGo_pages {α : Type} (limit : Nat) (hlim : 0 < limit) :
    ∀ (pages : List (List α)) (fetch : Nat → Except Unit (List α))
      (offset fuel reqs : Nat) (acc : List α) (offs : List Nat) (hne : pages ≠ []),
      (∀ i (h : i < pages.length), fetch (offset + i * limit) = Except.ok (pages.get ⟨i, h⟩)) →
      (∀ i (h : i + 1 < pages.length),
          (pages.get ⟨i, Nat.lt_of_succ_lt h⟩).length = limit) →
      (pages.getLast hne).length < limit →
      pages.length ≤ fuel →
      Heating.fetchMonthGo fetch limit fuel offset acc reqs offs =
        ⟨acc ++ pages.flatten, reqs + pages.length,
          offs ++ (List.range pages.length).map (fun i => offset + i * limit),
          Outcome.DONE⟩ := by
  intro pages
  induction pages with
  | nil => intro _ _ _ _ _ _ hne; exact absurd rfl hne
  | cons p ps ih =>
    intro fetch offset fuel reqs acc offs hne hfetch hfull hlast hfuel
    obtain ⟨f, rfl⟩ : ∃ f, fuel = f + 1 := by
      cases fuel with
      | zero => simp at hfuel
      | succ f => exact ⟨f, rfl⟩
    have h0 : fetch offset = Except.ok p := by
      simpa using hfetch 0 (Nat.succ_pos ps.length)
    rw [Heating.fetchMonthGo, h0]
    dsimp only
    cases ps with
    | nil =>
      have hp : p.length < limit := by simpa [List.getLast] using hlast
      by_cases hz : p.length = 0
      · rw [if_pos hz]
        have hpnil : p = [] := List.length_eq_zero.mp hz
        simp [hpnil, List.range_succ]
      · rw [if_neg hz, if_pos hp]
        simp [List.range_succ]
    | cons q qs =>
      have hfirst : p.length = limit := by
        simpa using hfull 0 (by simp)
      have hz : ¬ p.length = 0 := by omega
      rw [if_neg hz]
      rw [hfirst, if_neg (lt_irrefl limit)]
      have ihx := ih fetch (offset + limit) f (reqs + 1) (acc ++ p) (offs ++ [offset])
        (by simp)
        (fun i hi => by
          have := hfetch (i + 1) (Nat.succ_lt_succ hi)
          have e : offset + (i + 1) * limit = offset + limit + i * limit := by ring
          rw [e] at this
          simpa using this)
        (fun i hi => by
          have := hfull (i + 1) (Nat.succ_lt_succ hi)
          simpa using this)
        (by
          have : (p :: q :: qs).getLast hne = (q :: qs).getLast (by simp) :=
            List.getLast_cons (by simp)
          rw [this] at hlast
          exact hlast)
        (by simpa using Nat.le_of_succ_le_succ hfuel)
      rw [ihx]
      rw [show (p :: q :: qs).length = (q :: qs).length + 1 from rfl,
        range_map_offset (fun x => x) offset limit (q :: qs).length]
      simp only [Heating.FetchResult.mk.injEq, List.flatten_cons, List.length_cons]
      refine ⟨by simp, by omega, by simp, trivial⟩

/-- The precipitation pagination loop, run over a finite list of pages whose
front pages are all full and whose last page is short, folds every page,
issues one request per page at offsets advancing by `limit`, and terminates
in DONE, provided every request offset is below the ceiling. -/
theorem paginateGo_pages_done (limit max_offset : Nat) (hlim : 0 < limit) :
    ∀ (pages : List (List Precip.Obs)) (fetch : Nat → Except Unit (List Precip.Obs))
      (offset fuel reqs : Nat) (m : String → Precip.StationInfo) (offs : List Nat)
      (hne : pages ≠ []),
      (∀ i, i < pages.length → offset + i * limit < max_offset) →
      (∀ i (h : i < pages.length), fetch (offset + i * limit) = Except.ok (pages.get ⟨i, h⟩)) →
      (∀ i (h : i + 1 < pages.length),
          (pages.get ⟨i, Nat.lt_of_succ_lt h⟩).length = limit) →
      (pages.getLast hne).length < limit →
      pages.length ≤ fuel →
      Precip.paginateGo fetch limit max_offset fuel offset m reqs offs =
        ⟨List.foldl Precip.foldPage m pages, reqs + pages.length,
          offs ++ (List.range pages.length).map (fun i => offset + i * limit),
          Outcome.DONE⟩ := by
  intro pages
  induction pages with
  | nil => intro _ _ _ _ _ _ hne; exact absurd rfl hne
  | cons p ps ih =>
    intro fetch offset fuel reqs m offs hne hceil hfetch hfull hlast hfuel
    obtain ⟨f, rfl⟩ : ∃ f, fuel = f + 1 := by
      cases fuel with
      | zero => simp at hfuel
      | succ f => exact ⟨f, rfl⟩
    have hoff : offset < max_offset := by simpa using hceil 0 (Nat.succ_pos ps.length)
    have h0 : fetch offset = Except.ok p := by
      simpa using hfetch 0 (Nat.succ_pos ps.length)
    rw [Precip.paginateGo, if_pos hoff, h0]
    dsimp only
    cases ps with
    | nil =>
      have hp : p.length < limit := by simpa [List.getLast] using hlast
      by_cases hz : p.length = 0
      · rw [if_pos hz]
        have hpnil : p = [] := List.length_eq_zero.mp hz
        simp [hpnil, List.range_succ, Precip.foldPage]
      · rw [if_neg hz, if_pos hp]
        simp [List.range_succ]
    | cons q qs =>
      have hfirst : p.length = limit := by
        simpa using hfull 0 (by simp)
      have hz : ¬ p.length = 0 := by omega
      rw [if_neg hz]
      rw [hfirst, if_neg (lt_irrefl limit)]
      have ihx := ih fetch (offset + limit) f (reqs + 1) (Precip.foldPage m p)
        (offs ++ [offset])
        (by simp)
        (fun i hi => by
          have := hceil (i + 1) (Nat.succ_lt_succ hi)
          have e : offset + (i + 1) * limit = offset + limit + i * limit := by ring
          rw [e] at this
          simpa using this)
        (fun i hi => by
          have := hfetch (i + 1) (Nat.succ_lt_succ hi)
          have e : offset + (i + 1) * limit = offset + limit + i * limit := by ring
          rw [e] at this
          simpa using this)
        (fun i hi => by
          have := hfull (i + 1) (Nat.succ_lt_succ hi)
          simpa using this)
        (by
          have : (p :: q :: qs).getLast hne = (q :: qs).getLast (by simp) :=
            List.getLast_cons (by simp)
          rw [this] at hlast
          exact hlast)
        (by simpa using Nat.le_of_succ_le_succ hfuel)
      rw [ihx]
      rw [show (p :: q :: qs).length = (q :: qs).length + 1 from rfl,
        range_map_offset (fun x => x) offset limit (q :: qs).length]
      simp only [Precip.LoopResult.mk.injEq, List.foldl_cons, List.length_cons]
      refine ⟨by simp, by omega, by simp, by simp⟩

/-- Bounds of the ceiling division `(max_offset + limit - 1) / limit =
ceil(max_offset / limit)`: all request offsets `i * limit` for
`i < ceil` are below the ceiling, and `ceil * limit` reaches it. -/
theorem ceil_div_bounds (limit max_offset : Nat) (hlim : 0 < limit)
    (hmax : 0 < max_offset) :
    (∀ i, i < (max_offset + limit - 1) / limit → i * limit < max_offset) ∧
    max_offset ≤ ((max_offset + limit - 1) / limit) * limit := by
  have hdm := Nat.div_add_mod (max_offset + limit - 1) limit
  have hr : (max_offset + limit - 1) % limit < limit := Nat.mod_lt _ hlim
  have h3 : limit * ((max_offset + limit - 1) / limit) ≤ max_offset + limit - 1 :=
    le_of_le_of_eq (Nat.le_add_right _ _) hdm
  constructor
  · intro i hi
    have h2 : (i + 1) * limit ≤ ((max_offset + limit - 1) / limit) * limit :=
      Nat.mul_le_mul_right _ hi
    rw [Nat.mul_comm] at h3
    have h4 : (i + 1) * limit ≤ max_offset + limit - 1 := le_trans h2 h3
    rw [Nat.succ_mul] at h4
    omega
  · rw [Nat.mul_comm]
    omega

/-- C1 (amended): for pages shaped `[limit, ..., limit, k]` with `k < limit`,
the pagination loop issues exactly `n` requests at offsets `0, limit, ...,
(n-1)*limit` and terminates in DONE — unconditionally for the heating-data
month loop (which has no ceiling), and for the precipitation loop provided
every request offset stays below the `max_offset` ceiling (otherwise the
loop stops at the ceiling first, see the C2 theorem and the C1
counterexample).  The concrete two-page scenario yields summaries
stationA: count=2, min=5, max=9, sum=14 and stationB: count=1, min=2,
max=2, sum=2 after exactly 2 fetches, in DONE. -/
theorem C1_short_page_terminates_done :
    (∀ (α : Type) (fetch : Nat → Except Unit (List α)) (limit : Nat)
        (pages : List (List α)) (fuel : Nat) (hne : pages ≠ []),
      0 < limit →
      (∀ i (h : i < pages.length), fetch (i * limit) = Except.ok (pages.get ⟨i, h⟩)) →
      (∀ i (h : i + 1 < pages.length),
          (pages.get ⟨i, Nat.lt_of_succ_lt h⟩).length = limit) →
      (pages.getLast hne).length < limit →
      pages.length ≤ fuel →
      Heating.fetchMonthGo fetch limit fuel 0 [] 0 [] =
        ⟨pages.flatten, pages.length,
          (List.range pages.length).map (fun i => i * limit), Outcome.DONE⟩) ∧
    (∀ (fetch : Nat → Except Unit (List Precip.Obs)) (limit max_offset : Nat)
        (pages : List (List Precip.Obs)) (m : String → Precip.StationInfo)
        (fuel : Nat) (hne : pages ≠ []),
      0 < limit →
      (∀ i, i < pages.length → i * limit < max_offset) →
      (∀ i (h : i < pages.length), fetch (i * limit) = Except.ok (pages.get ⟨i, h⟩)) →
      (∀ i (h : i + 1 < pages.length),
          (pages.get ⟨i, Nat.lt_of_succ_lt h⟩).length = limit) →
      (pages.getLast hne).length < limit →
      pages.length ≤ fuel →
      Precip.paginateGo fetch limit max_offset fuel 0 m 0 [] =
        ⟨List.foldl Precip.foldPage m pages, pages.length,
          (List.range pages.length).map (fun i => i * limit), Outcome.DONE⟩) ∧
    ((Precip.paginateGo Precip.scenarioFetch 2 1000000 3 0
        (fun _ => Precip.defaultInfo) 0 []).requests = 2 ∧
      (Precip.paginateGo Precip.scenarioFetch 2 1000000 3 0
        (fun _ => Precip.defaultInfo) 0 []).outcome = Outcome.DONE ∧
      (Precip.paginateGo Precip.scenarioFetch 2 1000000 3 0
        (fun _ => Precip.defaultInfo) 0 []).station_info "stationA" =
        { stationId := some "stationA", name := none, latitude := none,
          longitude := none, country := none, status := none,
          validFrom := none, validTo := none, measures_precipitation := true,
          precipitation_observations := 2, first_precipitation_date := none,
          last_precipitation_date := none, min_precipitation := some 5,
          max_precipitation := some 9, total_precipitation_sample := 14 } ∧
      (Precip.paginateGo Precip.scenarioFetch 2 1000000 3 0
        (fun _ => Precip.defaultInfo) 0 []).station_info "stationB" =
        { stationId := some "stationB", name := none, latitude := none,
          longitude := none, country := none, status := none,
          validFrom := none, validTo := none, measures_precipitation := true,
          precipitation_observations := 1, first_precipitation_date := none,
          last_precipitation_date := none, min_precipitation := some 2,
          max_precipitation := some 2, total_precipitation_sample := 2 }) := by
  refine ⟨?_, ?_, by decide, by decide, by decide, by decide⟩
  · intro α fetch limit pages fuel hne hlim hfetch hfull hlast hfuel
    have h := fetchMonthGo_pages limit hlim pages fetch 0 fuel 0 [] [] hne
      (fun i hi => by simpa using hfetch i hi) hfull hlast hfuel
    rw [h]
    simp
  · intro fetch limit max_offset pages m fuel hne hlim hceil hfetch hfull hlast hfuel
    have h := paginateGo_pages_done limit max_offset hlim pages fetch 0 fuel 0 m [] hne
      (fun i hi => by simpa using hceil i hi)
      (fun i hi => by simpa using hfetch i hi) hfull hlast hfuel
    rw [h]
    simp

/-- C1 counterexample: with the script's own constants
(`limit = 300000`, `max_offset = 1000000`), the page sequence
`[300000, 300000, 300000, 300000, 0]` (n = 5 pages, last one short) is cut
off by the safety ceiling: only 4 requests are issued and the outcome is
ABORTED, not the 5 requests and DONE the claim asserts. -/
theorem C1_cex_ceiling_cuts_short_sequence :
    (Precip.get_precipitation_stations_loop Precip.cexFetch 5).requests = 4 ∧
    (Precip.get_precipitation_stations_loop Precip.cexFetch 5).outcome = Outcome.ABORTED ∧
    ¬ ((Precip.get_precipitation_stations_loop Precip.cexFetch 5).requests = 5 ∧
       (Precip.get_precipitation_stations_loop Precip.cexFetch 5).outcome = Outcome.DONE) := by
  have key : Precip.get_precipitation_stations_loop Precip.cexFetch 5 =
      Precip.paginateGo Precip.cexFetch 300000 1000000 1 (0 + 4 * 300000)
        (List.foldl Precip.foldPage (fun _ => Precip.defaultInfo)
          ((List.range 4).map
            (fun i => (fun _ => List.replicate 300000 Precip.nullObs) (0 + i * 300000))))
        (0 + 4) ([] ++ (List.range 4).map (fun i => 0 + i * 300000)) := by
    show Precip.paginateGo Precip.cexFetch 300000 1000000 (1 + 4) 0 _ 0 [] = _
    exact paginateGo_full_pages Precip.cexFetch 300000 1000000 (by norm_num)
      (fun _ => List.replicate 300000 Precip.nullObs) 4 0 1 0 _ []
      (by intro i hi; interval_cases i <;> norm_num)
      (by intro i hi; interval_cases i <;>
        norm_num [Precip.cexFetch, List.length_replicate])
  have exit : ∀ (fetch : Nat → Except Unit (List Precip.Obs))
      (l mo fuel offset : Nat) (m : String → Precip.StationInfo)
      (reqs : Nat) (offs : List Nat), mo ≤ offset →
      Precip.paginateGo fetch l mo (fuel + 1) offset m reqs offs =
        ⟨m, reqs, offs, Outcome.ABORTED⟩ := by
    intro fetch l mo fuel offset m reqs offs h
    rw [Precip.paginateGo, if_neg (Nat.not_lt.mpr h)]
  have key2 : Precip.get_precipitation_stations_loop Precip.cexFetch 5 =
      ⟨List.foldl Precip.foldPage (fun _ => Precip.defaultInfo)
          ((List.range 4).map
            (fun i => (fun _ => List.replicate 300000 Precip.nullObs) (0 + i * 300000))),
        0 + 4, [] ++ (List.range 4).map (fun i => 0 + i * 300000),
        Outcome.ABORTED⟩ := by
    rw [key]
    exact exit _ _ _ 0 _ _ _ _ (by norm_num)
  rw [key2]
  refine ⟨by norm_num, rfl, ?_⟩
  intro h
  have h5 := h.1
  norm_num at h5

/-- Witness for the C1 theorem: the heating loop on the single-page sequence
`[[]]` with limit 1, the precipitation loop on the same shape, and the
two-page scenario count. -/
theorem C1_short_page_terminates_done_witness :
    Heating.fetchMonthGo (fun _ => Except.ok ([] : List Nat)) 1 1 0 [] 0 [] =
      ⟨[], 1, [0], Outcome.DONE⟩ ∧
    Precip.paginateGo (fun _ => Except.ok []) 1 1 1 0
        (fun _ => Precip.defaultInfo) 0 [] =
      ⟨(fun _ => Precip.defaultInfo), 1, [0], Outcome.DONE⟩ ∧
    (Precip.paginateGo Precip.scenarioFetch 2 1000000 3 0
        (fun _ => Precip.defaultInfo) 0 []).requests = 2 :=
  ⟨C1_short_page_terminates_done.1 Nat (fun _ => Except.ok []) 1 [[]] 1
      (by simp) (by norm_num)
      (fun i h => by
        cases i with
        | zero => rfl
        | succ n => exact absurd h (by simp))
      (fun i h => absurd h (by simp))
      (by simp) (le_refl 1),
    C1_short_page_terminates_done.2.1 (fun _ => Except.ok []) 1 1 [[]]
      (fun _ => Precip.defaultInfo) 1 (by simp) (by norm_num)
      (fun i hi => by
        cases i with
        | zero => norm_num
        | succ n => exact absurd hi (by simp))
      (fun i h => by
        cases i with
        | zero => rfl
        | succ n => exact absurd h (by simp))
      (fun i h => absurd h (by simp))
      (by simp) (le_refl 1),
    C1_short_page_terminates_done.2.2.1⟩

/-- C2: if every page returned has exactly `limit` records, the pagination
loop stops once the offset reaches the `max_offset` ceiling, after exactly
`(max_offset + limit - 1) / limit = ceil(max_offset / limit)` requests (so
in particular at most that many), with outcome ABORTED, and the station map
folded from all fetched pages is retained in the result. -/
theorem C2_safety_ceiling_aborts (fetch : Nat → Except Unit (List Precip.Obs))
    (limit max_offset : Nat) (pages : Nat → List Precip.Obs)
    (m : String → Precip.StationInfo) (fuel : Nat)
    (hlim : 0 < limit) (hmax : 0 < max_offset)
    (hpages : ∀ off, fetch off = Except.ok (pages off) ∧ (pages off).length = limit)
    (hfuel : (max_offset + limit - 1) / limit + 1 ≤ fuel) :
    Precip.paginateGo fetch limit max_offset fuel 0 m 0 [] =
      ⟨List.foldl Precip.foldPage m
          ((List.range ((max_offset + limit - 1) / limit)).map
            (fun i => pages (i * limit))),
        (max_offset + limit - 1) / limit,
        (List.range ((max_offset + limit - 1) / limit)).map (fun i => i * limit),
        Outcome.ABORTED⟩ := by
  obtain ⟨hbelow, hreach⟩ := ceil_div_bounds limit max_offset hlim hmax
  set N := (max_offset + limit - 1) / limit with hN
  obtain ⟨f, hf, hf1⟩ : ∃ f, fuel = f + N ∧ 1 ≤ f := ⟨fuel - N, by omega, by omega⟩
  subst hf
  have hpre := paginateGo_full_pages fetch limit max_offset hlim pages N 0 f 0 m []
    (fun i hi => by simpa using hbelow i hi)
    (fun i _ => hpages (0 + i * limit))
  rw [hpre]
  obtain ⟨k, rfl⟩ : ∃ k, f = k + 1 := ⟨f - 1, by omega⟩
  rw [Precip.paginateGo,
    if_neg (by simp only [Nat.zero_add]; exact Nat.not_lt.mpr hreach)]
  simp

/-- Witness for C2: limit 1, ceiling 2, every page a fixed singleton. -/
theorem C2_safety_ceiling_aborts_witness :
    Precip.paginateGo (fun _ => Except.ok [Precip.valObs "w" 1]) 1 2 3 0
        (fun _ => Precip.defaultInfo) 0 [] =
      ⟨List.foldl Precip.foldPage (fun _ => Precip.defaultInfo)
          ((List.range 2).map (fun _ => [Precip.valObs "w" 1])),
        2, (List.range 2).map (fun i => i * 1), Outcome.ABORTED⟩ :=
  C2_safety_ceiling_aborts (fun _ => Except.ok [Precip.valObs "w" 1]) 1 2
    (fun _ => [Precip.valObs "w" 1]) (fun _ => Precip.defaultInfo) 3
    (by norm_num) (by norm_num) (fun off => ⟨rfl, rfl⟩) (by norm_num)

/-- C3: if pages at offsets `0, limit, ..., (p-1)*limit` are returned full
and the fetch at offset `p*limit` raises a transport error (all offsets
below the ceiling), the loop stops there with outcome ABORTED after `p + 1`
requests, and the result retains the station map folded from the `p`
successful pages — the error is absorbed by the handler, so the loop
returns a value instead of propagating an exception. -/
theorem C3_transport_error_keeps_partial (fetch : Nat → Except Unit (List Precip.Obs))
    (limit max_offset p : Nat) (pages : Nat → List Precip.Obs)
    (m : String → Precip.StationInfo) (fuel : Nat)
    (hlim : 0 < limit)
    (hfull : ∀ i, i < p → fetch (i * limit) = Except.ok (pages (i * limit)) ∧
        (pages (i * limit)).length = limit)
    (hceil : ∀ i, i ≤ p → i * limit < max_offset)
    (herr : fetch (p * limit) = Except.error ())
    (hfuel : p + 1 ≤ fuel) :
    Precip.paginateGo fetch limit max_offset fuel 0 m 0 [] =
      ⟨List.foldl Precip.foldPage m
          ((List.range p).map (fun i => pages (i * limit))),
        p + 1,
        (List.range p).map (fun i => i * limit) ++ [p * limit],
        Outcome.ABORTED⟩ := by
  obtain ⟨f, hf, hf1⟩ : ∃ f, fuel = f + p ∧ 1 ≤ f := ⟨fuel - p, by omega, by omega⟩
  subst hf
  have hpre := paginateGo_full_pages fetch limit max_offset hlim pages p 0 f 0 m []
    (fun i hi => by simpa using hceil i (le_of_lt hi))
    (fun i hi => by simpa using hfull i hi)
  rw [hpre]
  simp only [Nat.zero_add, List.nil_append]
  obtain ⟨k, rfl⟩ : ∃ k, f = k + 1 := ⟨f - 1, by omega⟩
  rw [Precip.paginateGo, if_pos (hceil p le_rfl), herr]

/-- Witness for C3: one full page at offset 0, a transport error at offset
1, ceiling 5. -/
theorem C3_transport_error_keeps_partial_witness :
    Precip.paginateGo
        (fun off => if off = 0 then Except.ok [Precip.valObs "w" 1]
          else Except.error ()) 1 5 2 0 (fun _ => Precip.defaultInfo) 0 [] =
      ⟨List.foldl Precip.foldPage (fun _ => Precip.defaultInfo)
          ((List.range 1).map (fun _ => [Precip.valObs "w" 1])),
        2, (List.range 1).map (fun i => i * 1) ++ [1 * 1], Outcome.ABORTED⟩ :=
  C3_transport_error_keeps_partial
    (fun off => if off = 0 then Except.ok [Precip.valObs "w" 1]
      else Except.error ()) 1 5 1
    (fun _ => [Precip.valObs "w" 1]) (fun _ => Precip.defaultInfo) 2
    (by norm_num)
    (fun i hi => by
      cases i with
      | zero => exact ⟨rfl, rfl⟩
      | succ n => exact absurd hi (by omega))
    (fun i hi => by omega)
    rfl (by norm_num)

/-- `firstStep` on a non-unset current value is a lexicographic minimum. -/
theorem firstStep_some (c d : String) (hc : c ≠ "") :
    firstStep (some c) d = some (min c d) := by
  simp only [firstStep, hc, false_or]
  rcases lt_or_le d c with h | h
  · rw [if_pos h, min_eq_right h.le]
  · rw [if_neg (not_lt.mpr h), min_eq_left h]

/-- `lastStep` on a non-unset current value is a lexicographic maximum. -/
theorem lastStep_some (c d : String) (hc : c ≠ "") :
    lastStep (some c) d = some (max c d) := by
  simp only [lastStep, hc, false_or]
  rcases lt_or_le c d with h | h
  · rw [if_pos h, max_eq_right h.le]
  · rw [if_neg (not_lt.mpr h), max_eq_left h]

/-- `minStep` on a present current value is a minimum. -/
theorem minStep_some (c v : Int) : minStep (some c) v = some (min c v) := by
  simp only [minStep]
  rcases lt_or_le v c with h | h
  · rw [if_pos h, min_eq_right h.le]
  · rw [if_neg (not_lt.mpr h), min_eq_left h]

/-- `maxStep` on a present current value is a maximum. -/
theorem maxStep_some (c v : Int) : maxStep (some c) v = some (max c v) := by
  simp only [maxStep]
  rcases lt_or_le c v with h | h
  · rw [if_pos h, max_eq_right h.le]
  · rw [if_neg (not_lt.mpr h), max_eq_left h]

/-- `firstStep` applications with nonempty dates commute. -/
theorem firstStep_comm (cur : Option String) (d1 d2 : String)
    (h1 : d1 ≠ "") (h2 : d2 ≠ "") :
    firstStep (firstStep cur d1) d2 = firstStep (firstStep cur d2) d1 := by
  have emp : ∀ d : String, firstStep (some "") d = some d := fun d => by
    simp [firstStep]
  cases cur with
  | none =>
    show firstStep (some d1) d2 = firstStep (some d2) d1
    rw [firstStep_some d1 d2 h1, firstStep_some d2 d1 h2, min_comm]
  | some c =>
    by_cases hc : c = ""
    · subst hc
      show firstStep (firstStep (some "") d1) d2 = firstStep (firstStep (some "") d2) d1
      rw [emp, emp, firstStep_some d1 d2 h1, firstStep_some d2 d1 h2, min_comm]
    · rw [firstStep_some c d1 hc, firstStep_some c d2 hc]
      have m1 : min c d1 ≠ "" := by
        rcases min_choice c d1 with h | h <;> rw [h] <;> assumption
      have m2 : min c d2 ≠ "" := by
        rcases min_choice c d2 with h | h <;> rw [h] <;> assumption
      rw [firstStep_some _ d2 m1, firstStep_some _ d1 m2, min_right_comm]

/-- `lastStep` applications with nonempty dates commute. -/
theorem lastStep_comm (cur : Option String) (d1 d2 : String)
    (h1 : d1 ≠ "") (h2 : d2 ≠ "") :
    lastStep (lastStep cur d1) d2 = lastStep (lastStep cur d2) d1 := by
  have emp : ∀ d : String, lastStep (some "") d = some d := fun d => by
    simp [lastStep]
  cases cur with
  | none =>
    show lastStep (some d1) d2 = lastStep (some d2) d1
    rw [lastStep_some d1 d2 h1, lastStep_some d2 d1 h2, max_comm]
  | some c =>
    by_cases hc : c = ""
    · subst hc
      show lastStep (lastStep (some "") d1) d2 = lastStep (lastStep (some "") d2) d1
      rw [emp, emp, lastStep_some d1 d2 h1, lastStep_some d2 d1 h2, max_comm]
    · rw [lastStep_some c d1 hc, lastStep_some c d2 hc]
      have m1 : max c d1 ≠ "" := by
        rcases max_choice c d1 with h | h <;> rw [h] <;> assumption
      have m2 : max c d2 ≠ "" := by
        rcases max_choice c d2 with h | h <;> rw [h] <;> assumption
      rw [lastStep_some _ d2 m1, lastStep_some _ d1 m2, sup_right_comm]

/-- `minStep` applications commute. -/
theorem minStep_comm (cur : Option Int) (v1 v2 : Int) :
    minStep (minStep cur v1) v2 = minStep (minStep cur v2) v1 := by
  cases cur with
  | none =>
    show minStep (some v1) v2 = minStep (some v2) v1
    rw [minStep_some, minStep_some, min_comm]
  | some c =>
    rw [minStep_some c v1, minStep_some c v2, minStep_some, minStep_some,
      min_right_comm]

/-- `maxStep` applications commute. -/
theorem maxStep_comm (cur : Option Int) (v1 v2 : Int) :
    maxStep (maxStep cur v1) v2 = maxStep (maxStep cur v2) v1 := by
  cases cur with
  | none =>
    show maxStep (some v1) v2 = maxStep (some v2) v1
    rw [maxStep_some, maxStep_some, max_comm]
  | some c =>
    rw [maxStep_some c v1, maxStep_some c v2, maxStep_some, maxStep_some,
      sup_right_comm]

/-- Guarded first-date steps commute. -/
theorem dateStepF_comm (cur : Option String) (x y : Option String) :
    Wind.dateStepF (Wind.dateStepF cur x) y = Wind.dateStepF (Wind.dateStepF cur y) x := by
  cases x with
  | none => rfl
  | some d1 =>
    cases y with
    | none => rfl
    | some d2 =>
      by_cases e1 : d1 = ""
      · by_cases e2 : d2 = "" <;> simp [Wind.dateStepF, e1, e2]
      · by_cases e2 : d2 = ""
        · simp [Wind.dateStepF, e1, e2]
        · simp [Wind.dateStepF, e1, e2, firstStep_comm cur d1 d2 e1 e2]

/-- Guarded last-date steps commute. -/
theorem dateStepL_comm (cur : Option String) (x y : Option String) :
    Wind.dateStepL (Wind.dateStepL cur x) y = Wind.dateStepL (Wind.dateStepL cur y) x := by
  cases x with
  | none => rfl
  | some d1 =>
    cases y with
    | none => rfl
    | some d2 =>
      by_cases e1 : d1 = ""
      · by_cases e2 : d2 = "" <;> simp [Wind.dateStepL, e1, e2]
      · by_cases e2 : d2 = ""
        · simp [Wind.dateStepL, e1, e2]
        · simp [Wind.dateStepL, e1, e2, lastStep_comm cur d1 d2 e1 e2]

/-- Guarded speed-minimum steps commute. -/
theorem speedStepMin_comm (cur : Option Int) (x y : Option Int) (sx sy : Bool) :
    Wind.speedStepMin (Wind.speedStepMin cur x sx) y sy =
      Wind.speedStepMin (Wind.speedStepMin cur y sy) x sx := by
  cases x with
  | none => rfl
  | some v1 =>
    cases y with
    | none => rfl
    | some v2 =>
      cases sx <;> cases sy <;> simp [Wind.speedStepMin, minStep_comm cur v1 v2]

/-- Guarded speed-maximum steps commute. -/
theorem speedStepMax_comm (cur : Option Int) (x y : Option Int) (sx sy : Bool) :
    Wind.speedStepMax (Wind.speedStepMax cur x sx) y sy =
      Wind.speedStepMax (Wind.speedStepMax cur y sy) x sx := by
  cases x with
  | none => rfl
  | some v1 =>
    cases y with
    | none => rfl
    | some v2 =>
      cases sx <;> cases sy <;> simp [Wind.speedStepMax, maxStep_comm cur v1 v2]

/-- Two updates of the same station commute up to the coordinate fields. -/
theorem update_strip_comm (i : Wind.WindInfo) (sid : String) (a b : Wind.WObs) :
    Wind.stripCoords (Wind.updateStation (Wind.updateStation i sid a) sid b) =
      Wind.stripCoords (Wind.updateStation (Wind.updateStation i sid b) sid a) := by
  simp only [Wind.stripCoords, Wind.updateStation, Wind.WindInfo.mk.injEq,
    true_and, and_true, eq_self_iff_true]
  refine ⟨Finset.Insert.comm _ _ _, by omega, by omega, by omega, by omega,
    by omega, dateStepF_comm _ _ _, dateStepL_comm _ _ _,
    speedStepMax_comm _ _ _ _ _, speedStepMin_comm _ _ _ _ _⟩

/-- Strip-equal inputs give strip-equal updates: no field other than the
coordinates depends on the coordinates. -/
theorem update_strip_congr (i i2 : Wind.WindInfo) (sid : String) (o : Wind.WObs)
    (h : Wind.stripCoords i = Wind.stripCoords i2) :
    Wind.stripCoords (Wind.updateStation i sid o) =
      Wind.stripCoords (Wind.updateStation i2 sid o) := by
  cases i
  cases i2
  simp only [Wind.stripCoords, Wind.WindInfo.mk.injEq] at h
  obtain ⟨h1, h2, -, -, h5, h6, h7, h8, h9, h10, h11, h12, h13, h14, h15, h16,
    h17, h18, h19⟩ := h
  subst h1 h2 h5 h6 h7 h8 h9 h10 h11 h12 h13 h14 h15 h16 h17 h18 h19
  simp [Wind.updateStation, Wind.stripCoords]

/-- Pointwise strip-equality is preserved by folding one observation. -/
theorem foldFeature_strip_congr (m m2 : String → Wind.WindInfo) (o : Wind.WObs)
    (h : ∀ s, Wind.stripCoords (m s) = Wind.stripCoords (m2 s)) :
    ∀ s, Wind.stripCoords ((Wind.foldFeature m o) s) =
      Wind.stripCoords ((Wind.foldFeature m2 o) s) := by
  intro s
  cases ho : o.stationId with
  | none => simp [Wind.foldFeature, ho, h s]
  | some sid =>
    simp only [Wind.foldFeature, ho]
    by_cases hs : s = sid
    · subst hs
      simp only [if_pos rfl]
      exact update_strip_congr _ _ s o (h s)
    · simp only [if_neg hs]
      exact h s

/-- Pointwise strip-equality is preserved by folding a whole list. -/
theorem foldObs_strip_congr (l : List Wind.WObs) :
    ∀ (m m2 : String → Wind.WindInfo),
      (∀ s, Wind.stripCoords (m s) = Wind.stripCoords (m2 s)) →
      ∀ s, Wind.stripCoords ((Wind.foldObs m l) s) =
        Wind.stripCoords ((Wind.foldObs m2 l) s) := by
  induction l with
  | nil => intro m m2 h s; exact h s
  | cons a t ih =>
    intro m m2 h s
    exact ih _ _ (foldFeature_strip_congr m m2 a h) s

/-- Folding two observations in either order gives strip-equal maps. -/
theorem foldFeature_strip_swap (m : String → Wind.WindInfo) (a b : Wind.WObs) :
    ∀ s, Wind.stripCoords ((Wind.foldFeature (Wind.foldFeature m a) b) s) =
      Wind.stripCoords ((Wind.foldFeature (Wind.foldFeature m b) a) s) := by
  intro s
  cases ha : a.stationId with
  | none => simp [Wind.foldFeature, ha]
  | some sa =>
    cases hb : b.stationId with
    | none => simp [Wind.foldFeature, ha, hb]
    | some sb =>
      by_cases hab : sa = sb
      · subst hab
        simp only [Wind.foldFeature, ha, hb]
        by_cases hs : s = sa
        · subst hs
          simp only [if_pos rfl]
          exact update_strip_comm (m s) s a b
        · simp [if_neg hs]
      · have hba : sb ≠ sa := fun e => hab e.symm
        simp only [Wind.foldFeature, ha, hb]
        by_cases h1 : s = sa
        · subst h1
          simp [hab, hba]
        · by_cases h2 : s = sb
          · subst h2
            simp [hab, hba, h1]
          · simp [h1, h2]

/-- Permuted observation lists fold to strip-equal maps. -/
theorem foldObs_strip_perm (l1 l2 : List Wind.WObs) (hp : l1.Perm l2) :
    ∀ (m : String → Wind.WindInfo) (s : String),
      Wind.stripCoords ((Wind.foldObs m l1) s) =
        Wind.stripCoords ((Wind.foldObs m l2) s) := by
  induction hp with
  | nil => intro m s; rfl
  | cons x _ ih =>
    intro m s
    exact ih (Wind.foldFeature m x) s
  | swap x y l =>
    intro m s
    exact foldObs_strip_congr l _ _ (foldFeature_strip_swap m y x) s
  | trans _ _ ih1 ih2 =>
    intro m s
    exact (ih1 m s).trans (ih2 m s)

/-- C7 (amended): processing the observation sources of `wind.py` in any
order (any permutation of the flattened page/parameter-pass sequence) over
the same summary mapping yields the same final mapping on every field
EXCEPT the coordinates, which are first-seen and may depend on order (see
the counterexample); and each single invocation only adds to counters and
the parameter-flag set and widens (never narrows) min/max/first/last. -/
theorem C7_fold_order_independent_modulo_coords :
    (∀ (l1 l2 : List Wind.WObs), l1.Perm l2 →
      ∀ (m : String → Wind.WindInfo) (s : String),
        Wind.stripCoords ((Wind.foldObs m l1) s) =
          Wind.stripCoords ((Wind.foldObs m l2) s)) ∧
    (∀ (m : String → Wind.WindInfo) (o : Wind.WObs) (s : String),
      (m s).first_wind_date ≠ some "" →
      (m s).last_wind_date ≠ some "" →
      ((m s).total_wind_observations ≤
          ((Wind.foldFeature m o) s).total_wind_observations ∧
        (m s).wind_parameters ⊆ ((Wind.foldFeature m o) s).wind_parameters ∧
        (∀ v, (m s).min_wind_speed_recorded = some v →
          ∃ w, ((Wind.foldFeature m o) s).min_wind_speed_recorded = some w ∧
            w ≤ v) ∧
        (∀ v, (m s).max_wind_speed_recorded = some v →
          ∃ w, ((Wind.foldFeature m o) s).max_wind_speed_recorded = some w ∧
            v ≤ w) ∧
        (∀ d, (m s).first_wind_date = some d →
          ∃ e, ((Wind.foldFeature m o) s).first_wind_date = some e ∧ e ≤ d) ∧
        (∀ d, (m s).last_wind_date = some d →
          ∃ e, ((Wind.foldFeature m o) s).last_wind_date = some e ∧ d ≤ e))) := by
  refine ⟨foldObs_strip_perm, ?_⟩
  intro m o s hf hl
  cases ho : o.stationId with
  | none =>
    simp only [Wind.foldFeature, ho]
    exact ⟨le_refl _, le_refl _, fun v hv => ⟨v, hv, le_refl v⟩,
      fun v hv => ⟨v, hv, le_refl v⟩, fun d hd => ⟨d, hd, le_refl d⟩,
      fun d hd => ⟨d, hd, le_refl d⟩⟩
  | some sid =>
    simp only [Wind.foldFeature, ho]
    by_cases hs : s = sid
    · subst hs
      simp only [if_pos rfl, Wind.updateStation]
      refine ⟨Nat.le_succ _, Finset.subset_insert _ _, ?_, ?_, ?_, ?_⟩
      · intro v hv
        cases hov : o.value with
        | none => exact ⟨v, by simp [Wind.speedStepMin, hv], le_refl v⟩
        | some u =>
          cases hsp : o.paramId.hasSpeed with
          | false => exact ⟨v, by simp [Wind.speedStepMin, hv, hsp], le_refl v⟩
          | true =>
            refine ⟨min v u, ?_, min_le_left v u⟩
            simp [Wind.speedStepMin, hv, hsp, minStep_some]
      · intro v hv
        cases hov : o.value with
        | none => exact ⟨v, by simp [Wind.speedStepMax, hv], le_refl v⟩
        | some u =>
          cases hsp : o.paramId.hasSpeed with
          | false => exact ⟨v, by simp [Wind.speedStepMax, hv, hsp], le_refl v⟩
          | true =>
            refine ⟨max v u, ?_, le_max_left v u⟩
            simp [Wind.speedStepMax, hv, hsp, maxStep_some]
      · intro d hd
        have hdne : d ≠ "" := fun e => hf (by rw [hd, e])
        cases hod : o.fromDate with
        | none => exact ⟨d, by simp [Wind.dateStepF, hd], le_refl d⟩
        | some x =>
          by_cases hx : x = ""
          · exact ⟨d, by simp [Wind.dateStepF, hd, hx], le_refl d⟩
          · refine ⟨min d x, ?_, min_le_left d x⟩
            simp [Wind.dateStepF, hd, hx, firstStep_some d x hdne]
      · intro d hd
        have hdne : d ≠ "" := fun e => hl (by rw [hd, e])
        cases hod : o.fromDate with
        | none => exact ⟨d, by simp [Wind.dateStepL, hd], le_refl d⟩
        | some x =>
          by_cases hx : x = ""
          · exact ⟨d, by simp [Wind.dateStepL, hd, hx], le_refl d⟩
          · refine ⟨max d x, ?_, le_max_left d x⟩
            simp [Wind.dateStepL, hd, hx, lastStep_some d x hdne]
    · simp only [if_neg hs]
      exact ⟨le_refl _, le_refl _, fun v hv => ⟨v, hv, le_refl v⟩,
        fun v hv => ⟨v, hv, le_refl v⟩, fun d hd => ⟨d, hd, le_refl d⟩,
        fun d hd => ⟨d, hd, le_refl d⟩⟩

/-- C7 counterexample: two observations for the same station carrying
different geometry give different final mappings in the two processing
orders — the coordinates keep whichever geometry came first — so the fold
is not commutative on the full summary. -/
theorem C7_cex_coordinate_order_dependence :
    ((Wind.foldObs (fun _ => Wind.defaultInfo) [Wind.cexObsG1, Wind.cexObsG2]) "s").latitude
        = some 2 ∧
    ((Wind.foldObs (fun _ => Wind.defaultInfo) [Wind.cexObsG2, Wind.cexObsG1]) "s").latitude
        = some 4 ∧
    (Wind.foldObs (fun _ => Wind.defaultInfo) [Wind.cexObsG1, Wind.cexObsG2]) "s" ≠
      (Wind.foldObs (fun _ => Wind.defaultInfo) [Wind.cexObsG2, Wind.cexObsG1]) "s" := by
  have e1 : ((Wind.foldObs (fun _ => Wind.defaultInfo)
      [Wind.cexObsG1, Wind.cexObsG2]) "s").latitude = some 2 := by decide
  have e2 : ((Wind.foldObs (fun _ => Wind.defaultInfo)
      [Wind.cexObsG2, Wind.cexObsG1]) "s").latitude = some 4 := by decide
  refine ⟨e1, e2, fun h => ?_⟩
  have := congrArg Wind.WindInfo.latitude h
  rw [e1, e2] at this
  exact absurd this (by decide)

/-- Witness for C7: the swap permutation of the two counterexample
observations still yields strip-equal results, and one fold step on the
fresh map only widens. -/
theorem C7_fold_order_independent_modulo_coords_witness :
    Wind.stripCoords ((Wind.foldObs (fun _ => Wind.defaultInfo)
        [Wind.cexObsG1, Wind.cexObsG2]) "s") =
      Wind.stripCoords ((Wind.foldObs (fun _ => Wind.defaultInfo)
        [Wind.cexObsG2, Wind.cexObsG1]) "s") ∧
    ((fun _ => Wind.defaultInfo : String → Wind.WindInfo) "s").total_wind_observations ≤
      ((Wind.foldFeature (fun _ => Wind.defaultInfo) Wind.cexObsG1) "s").total_wind_observations :=
  ⟨C7_fold_order_independent_modulo_coords.1 [Wind.cexObsG1, Wind.cexObsG2]
      [Wind.cexObsG2, Wind.cexObsG1] (List.Perm.swap Wind.cexObsG2 Wind.cexObsG1 [])
      (fun _ => Wind.defaultInfo) "s",
    (C7_fold_order_independent_modulo_coords.2 (fun _ => Wind.defaultInfo)
      Wind.cexObsG1 "s" (by decide) (by decide)).1⟩

/-- A join step never touches the non-metadata fields of any station. -/
theorem joinStep_stripMeta (m : String → Wind.WindInfo) (r : Wind.MetaRec)
    (s : String) :
    Wind.stripMeta ((Wind.joinStep m r) s) = Wind.stripMeta (m s) := by
  cases hr : r.stationId with
  | none => simp [Wind.joinStep, hr]
  | some sid =>
    simp only [Wind.joinStep, hr]
    by_cases hm : (m sid).stationId ≠ none
    · rw [if_pos hm]
      by_cases hs : s = sid
      · subst hs
        simp [Wind.stripMeta]
      · simp [hs]
    · rw [if_neg hm]

/-- The whole join never touches the non-metadata fields of any station. -/
theorem joinMeta_stripMeta (metas : List Wind.MetaRec) :
    ∀ (m : String → Wind.WindInfo) (s : String),
      Wind.stripMeta ((Wind.joinMeta m metas) s) = Wind.stripMeta (m s) := by
  induction metas with
  | nil => intro m s; rfl
  | cons r t ih =>
    intro m s
    exact (ih (Wind.joinStep m r) s).trans (joinStep_stripMeta m r s)

/-- A station matched by no metadata record is completely unchanged. -/
theorem joinMeta_not_matched (metas : List Wind.MetaRec) :
    ∀ (m : String → Wind.WindInfo) (s : String),
      (∀ r ∈ metas, r.stationId ≠ some s) →
      (Wind.joinMeta m metas) s = m s := by
  induction metas with
  | nil => intro m s _; rfl
  | cons r t ih =>
    intro m s h
    have step : (Wind.joinStep m r) s = m s := by
      cases hr : r.stationId with
      | none => simp [Wind.joinStep, hr]
      | some sid =>
        have hne : s ≠ sid := by
          intro e
          exact h r (by simp) (by rw [hr, e])
        simp only [Wind.joinStep, hr]
        by_cases hm : (m sid).stationId ≠ none
        · rw [if_pos hm, if_neg hne]
        · rw [if_neg hm]
    exact (ih (Wind.joinStep m r) s (fun x hx => h x (by simp [hx]))).trans step

/-- Sun: a join step never touches the non-metadata fields. -/
theorem sunJoinStep_stripMeta (m : String → Sun.SunInfo) (r : Wind.MetaRec)
    (s : String) :
    Sun.stripMeta ((Sun.joinStep m r) s) = Sun.stripMeta (m s) := by
  cases hr : r.stationId with
  | none => simp [Sun.joinStep, hr]
  | some sid =>
    simp only [Sun.joinStep, hr]
    by_cases hm : (m sid).stationId ≠ none
    · rw [if_pos hm]
      by_cases hs : s = sid
      · subst hs
        simp [Sun.stripMeta]
      · simp [hs]
    · rw [if_neg hm]

/-- Sun: the whole join never touches the non-metadata fields. -/
theorem sunJoinMeta_stripMeta (metas : List Wind.MetaRec) :
    ∀ (m : String → Sun.SunInfo) (s : String),
      Sun.stripMeta ((Sun.joinMeta m metas) s) = Sun.stripMeta (m s) := by
  induction metas with
  | nil => intro m s; rfl
  | cons r t ih =>
    intro m s
    exact (ih (Sun.joinStep m r) s).trans (sunJoinStep_stripMeta m r s)

/-- C8 (amended): the metadata join matches by exact key; a matching record
overwrites exactly the name/country/status/validity fields (fields missing
from the metadata record default to "Unknown"); a station matched by no
record is completely unchanged — which in `wind.py` means its
name/country/status stay None/null in the output row, because the
defaultdict pre-initialises those keys and so the `'Unknown'` fallback of
`info.get(..., 'Unknown')` never fires, whereas in `sunlight.py` the
country/status keys are NOT pre-initialised and an unmatched station's row
really does read "Unknown" for them (name, which IS pre-initialised, stays
None there too); in all cases the join leaves every accumulated statistic
unchanged. -/
theorem C8_metadata_join_exact_key :
    (∀ (m : String → Wind.WindInfo) (r : Wind.MetaRec) (sid : String),
      r.stationId = some sid → (m sid).stationId ≠ none →
      (Wind.joinMeta m [r]) sid =
        { m sid with
          name := some (r.name.getD "Unknown")
          country := some (r.country.getD "Unknown")
          status := some (r.status.getD "Unknown")
          validFrom := r.validFrom
          validTo := r.validTo }) ∧
    (∀ (m : String → Wind.WindInfo) (metas : List Wind.MetaRec) (s : String),
      (∀ r ∈ metas, r.stationId ≠ some s) →
      (Wind.joinMeta m metas) s = m s) ∧
    (∀ (m : String → Wind.WindInfo) (metas : List Wind.MetaRec) (s : String),
      Wind.stripMeta ((Wind.joinMeta m metas) s) = Wind.stripMeta (m s)) ∧
    (∀ info : Wind.WindInfo,
      (Wind.buildRow info).name = info.name ∧
      (Wind.buildRow info).country = info.country ∧
      (Wind.buildRow info).status = info.status) ∧
    (∀ (m : String → Sun.SunInfo) (metas : List Wind.MetaRec) (s : String),
      Sun.stripMeta ((Sun.joinMeta m metas) s) = Sun.stripMeta (m s)) ∧
    (∀ info : Sun.SunInfo, info.country = none → info.status = none →
      (Sun.buildRow info).country = "Unknown" ∧
      (Sun.buildRow info).status = "Unknown" ∧
      (Sun.buildRow info).name = info.name) := by
  refine ⟨?_, fun m metas s => joinMeta_not_matched metas m s,
    fun m metas s => joinMeta_stripMeta metas m s, ?_,
    fun m metas s => sunJoinMeta_stripMeta metas m s, ?_⟩
  · intro m r sid hr hm
    show (Wind.joinStep m r) sid = _
    simp only [Wind.joinStep, hr]
    rw [if_pos hm, if_pos rfl]
  · intro info
    exact ⟨rfl, rfl, rfl⟩
  · intro info hc hs
    exact ⟨by simp [Sun.buildRow, hc], by simp [Sun.buildRow, hs], rfl⟩

/-- C8 counterexample: a wind station aggregated from one observation and
matched by no metadata record ends with `name = None` in its output row —
not the placeholder "Unknown" the claim asserts — because the `'Unknown'`
default of `info.get('name', 'Unknown')` is dead for pre-initialised
keys. -/
theorem C8_cex_unmatched_wind_station_keeps_null :
    (Wind.buildRow ((Wind.joinMeta
        (Wind.foldObs (fun _ => Wind.defaultInfo) [Wind.c8Obs]) []) "06030")).name
      = none ∧
    (Wind.buildRow ((Wind.joinMeta
        (Wind.foldObs (fun _ => Wind.defaultInfo) [Wind.c8Obs]) []) "06030")).name
      ≠ some "Unknown" ∧
    (Wind.buildRow ((Wind.joinMeta
        (Wind.foldObs (fun _ => Wind.defaultInfo) [Wind.c8Obs]) []) "06030")).name
      ≠ some "unknown" := by
  refine ⟨by decide, by decide, by decide⟩

/-- Witness for C8: the join applied to a matching metadata record for the
aggregated station 06030, and the sunlight fallback on a summary whose
join-only keys are absent. -/
theorem C8_metadata_join_exact_key_witness :
    (Wind.joinMeta (Wind.foldObs (fun _ => Wind.defaultInfo) [Wind.c8Obs])
        [Wind.c8Meta]) "06030" =
      { (Wind.foldObs (fun _ => Wind.defaultInfo) [Wind.c8Obs]) "06030" with
        name := some "Aalborg"
        country := some "Denmark"
        status := some "Active"
        validFrom := none
        validTo := none } ∧
    ((Sun.buildRow Sun.defaultInfo).country = "Unknown" ∧
      (Sun.buildRow Sun.defaultInfo).status = "Unknown" ∧
      (Sun.buildRow Sun.defaultInfo).name = Sun.defaultInfo.name) :=
  ⟨C8_metadata_join_exact_key.1 _ Wind.c8Meta "06030" rfl (by decide),
    C8_metadata_join_exact_key.2.2.2.2.2 Sun.defaultInfo rfl rfl⟩

/-- `firstStep` never yields `None`. -/
theorem firstStep_ne_none (cur : Option String) (d : String) :
    firstStep cur d ≠ none := by
  cases cur with
  | none => simp [firstStep]
  | some c =>
    simp only [firstStep]
    split <;> simp

/-- `lastStep` never yields `None`. -/
theorem lastStep_ne_none (cur : Option String) (d : String) :
    lastStep cur d ≠ none := by
  cases cur with
  | none => simp [lastStep]
  | some c =>
    simp only [lastStep]
    split <;> simp

/-- The running first date is `None` exactly when it started `None` and no
date was folded. -/
theorem foldl_firstStep_none (ds : List String) :
    ∀ cur : Option String,
      (List.foldl firstStep cur ds = none ↔ (cur = none ∧ ds = [])) := by
  induction ds with
  | nil => intro cur; simp
  | cons e t ih =>
    intro cur
    rw [List.foldl_cons]
    rw [ih (firstStep cur e)]
    simp [firstStep_ne_none cur e]

/-- The running last date is `None` exactly when it started `None` and no
date was folded. -/
theorem foldl_lastStep_none (ds : List String) :
    ∀ cur : Option String,
      (List.foldl lastStep cur ds = none ↔ (cur = none ∧ ds = [])) := by
  induction ds with
  | nil => intro cur; simp
  | cons e t ih =>
    intro cur
    rw [List.foldl_cons]
    rw [ih (lastStep cur e)]
    simp [lastStep_ne_none cur e]

/-- The running first date is the lexicographic minimum of the folded dates
and the initial value. -/
theorem foldl_firstStep_min (ds : List String) :
    ∀ cur : Option String,
      (∀ e ∈ ds, e ≠ "") →
      (∀ c, cur = some c → c ≠ "") →
      ∀ d, List.foldl firstStep cur ds = some d →
        (d ∈ ds ∨ cur = some d) ∧ (∀ e ∈ ds, d ≤ e) ∧
        (∀ c, cur = some c → d ≤ c) := by
  induction ds with
  | nil =>
    intro cur _ _ d hd
    simp only [List.foldl_nil] at hd
    refine ⟨Or.inr hd, by simp, fun c hc => ?_⟩
    rw [hd] at hc
    exact le_of_eq (Option.some.inj hc)
  | cons e t ih =>
    intro cur hds hcur d hd
    have he : e ≠ "" := hds e (by simp)
    rw [List.foldl_cons] at hd
    obtain ⟨x, hx1, hx2, hx3, hx4, hx5⟩ :
        ∃ x, firstStep cur e = some x ∧ x ≤ e ∧
          (∀ c, cur = some c → x ≤ c) ∧ (x = e ∨ cur = some x) ∧ x ≠ "" := by
      cases cur with
      | none =>
        exact ⟨e, rfl, le_refl e, fun c hc => absurd hc (by simp),
          Or.inl rfl, he⟩
      | some c =>
        have hc : c ≠ "" := hcur c rfl
        refine ⟨min c e, firstStep_some c e hc, min_le_right c e,
          fun c2 hc2 => ?_, ?_, ?_⟩
        · rw [← Option.some.inj hc2]
          exact min_le_left c e
        · rcases min_choice c e with h | h
          · exact Or.inr (by rw [h])
          · exact Or.inl h
        · rcases min_choice c e with h | h <;> rw [h] <;> assumption
    rw [hx1] at hd
    obtain ⟨hmem, hle, hcurle⟩ := ih (some x)
      (fun f hf => hds f (by simp [hf])) (fun c hc => by
        rw [← Option.some.inj hc]; exact hx5) d hd
    refine ⟨?_, ?_, ?_⟩
    · rcases hmem with h | h
      · exact Or.inl (by simp [h])
      · have hdx : d = x := (Option.some.inj h).symm
        subst hdx
        rcases hx4 with h2 | h2
        · exact Or.inl (by simp [h2])
        · exact Or.inr h2
    · intro f hf
      rcases List.mem_cons.mp hf with h | h
      · subst h
        exact le_trans (hcurle x rfl) hx2
      · exact hle f h
    · intro c hc
      exact le_trans (hcurle x rfl) (hx3 c hc)

/-- The running last date is the lexicographic maximum of the folded dates
and the initial value. -/
theorem foldl_lastStep_max (ds : List String) :
    ∀ cur : Option String,
      (∀ e ∈ ds, e ≠ "") →
      (∀ c, cur = some c → c ≠ "") →
      ∀ d, List.foldl lastStep cur ds = some d →
        (d ∈ ds ∨ cur = some d) ∧ (∀ e ∈ ds, e ≤ d) ∧
        (∀ c, cur = some c → c ≤ d) := by
  induction ds with
  | nil =>
    intro cur _ _ d hd
    simp only [List.foldl_nil] at hd
    refine ⟨Or.inr hd, by simp, fun c hc => ?_⟩
    rw [hd] at hc
    exact le_of_eq (Option.some.inj hc).symm
  | cons e t ih =>
    intro cur hds hcur d hd
    have he : e ≠ "" := hds e (by simp)
    rw [List.foldl_cons] at hd
    obtain ⟨x, hx1, hx2, hx3, hx4, hx5⟩ :
        ∃ x, lastStep cur e = some x ∧ e ≤ x ∧
          (∀ c, cur = some c → c ≤ x) ∧ (x = e ∨ cur = some x) ∧ x ≠ "" := by
      cases cur with
      | none =>
        exact ⟨e, rfl, le_refl e, fun c hc => absurd hc (by simp),
          Or.inl rfl, he⟩
      | some c =>
        have hc : c ≠ "" := hcur c rfl
        refine ⟨max c e, lastStep_some c e hc, le_max_right c e,
          fun c2 hc2 => ?_, ?_, ?_⟩
        · rw [← Option.some.inj hc2]
          exact le_max_left c e
        · rcases max_choice c e with h | h
          · exact Or.inr (by rw [h])
          · exact Or.inl h
        · rcases max_choice c e with h | h <;> rw [h] <;> assumption
    rw [hx1] at hd
    obtain ⟨hmem, hle, hcurle⟩ := ih (some x)
      (fun f hf => hds f (by simp [hf])) (fun c hc => by
        rw [← Option.some.inj hc]; exact hx5) d hd
    refine ⟨?_, ?_, ?_⟩
    · rcases hmem with h | h
      · exact Or.inl (by simp [h])
      · have hdx : d = x := (Option.some.inj h).symm
        subst hdx
        rcases hx4 with h2 | h2
        · exact Or.inl (by simp [h2])
        · exact Or.inr h2
    · intro f hf
      rcases List.mem_cons.mp hf with h | h
      · subst h
        exact le_trans hx2 (hcurle x rfl)
      · exact hle f h
    · intro c hc
      exact le_trans (hx3 c hc) (hcurle x rfl)

/-- Unfolding one step of a page fold. -/
theorem foldPage_cons (m : String → Precip.StationInfo) (o : Precip.Obs)
    (t : List Precip.Obs) :
    Precip.foldPage m (o :: t) = Precip.foldPage (Precip.foldFeature m o) t := rfl

/-- Every date collected by `datesOf` is nonempty. -/
theorem datesOf_ne_empty (sid : String) :
    ∀ (l : List Precip.Obs), ∀ e ∈ Precip.datesOf l sid, e ≠ "" := by
  intro l
  induction l with
  | nil => intro e he; simp [Precip.datesOf] at he
  | cons o t ih =>
    intro e he
    obtain ⟨osid, og, ofd, ov⟩ := o
    cases osid with
    | none =>
      rw [show Precip.datesOf (⟨none, og, ofd, ov⟩ :: t) sid = Precip.datesOf t sid by
        simp [Precip.datesOf]] at he
      exact ih e he
    | some s =>
      cases ofd with
      | none =>
        rw [show Precip.datesOf (⟨some s, og, none, ov⟩ :: t) sid =
            Precip.datesOf t sid by simp [Precip.datesOf]] at he
        exact ih e he
      | some d =>
        by_cases hc : s = sid ∧ d ≠ ""
        · rw [show Precip.datesOf (⟨some s, og, some d, ov⟩ :: t) sid =
              d :: Precip.datesOf t sid by simp [Precip.datesOf, hc]] at he
          rcases List.mem_cons.mp he with h | h
          · subst h; exact hc.2
          · exact ih e h
        · rw [show Precip.datesOf (⟨some s, og, some d, ov⟩ :: t) sid =
              Precip.datesOf t sid by simp [Precip.datesOf, hc]] at he
          exact ih e he

/-- The running first/last fields of one station are folds of `firstStep`
and `lastStep` over that station's nonempty dates. -/
theorem foldPage_first_last (sid : String) :
    ∀ (l : List Precip.Obs) (m : String → Precip.StationInfo),
      (((Precip.foldPage m l) sid).first_precipitation_date =
        List.foldl firstStep ((m sid).first_precipitation_date)
          (Precip.datesOf l sid)) ∧
      (((Precip.foldPage m l) sid).last_precipitation_date =
        List.foldl lastStep ((m sid).last_precipitation_date)
          (Precip.datesOf l sid)) := by
  intro l
  induction l with
  | nil => intro m; exact ⟨rfl, rfl⟩
  | cons o t ih =>
    intro m
    obtain ⟨osid, og, ofd, ov⟩ := o
    rw [foldPage_cons]
    cases osid with
    | none =>
      have h1 : Precip.foldFeature m ⟨none, og, ofd, ov⟩ = m := rfl
      have h2 : Precip.datesOf (⟨none, og, ofd, ov⟩ :: t) sid =
          Precip.datesOf t sid := by simp [Precip.datesOf]
      rw [h1, h2]
      exact ih m
    | some s =>
      by_cases hs : s = sid
      · subst hs
        obtain ⟨ihf, ihl⟩ := ih (Precip.foldFeature m ⟨some s, og, ofd, ov⟩)
        have hsid : (Precip.foldFeature m ⟨some s, og, ofd, ov⟩) s =
            Precip.updateStation (m s) s ⟨some s, og, ofd, ov⟩ := by
          simp [Precip.foldFeature]
        rw [ihf, ihl, hsid]
        cases ofd with
        | none =>
          have e2 : Precip.datesOf (⟨some s, og, none, ov⟩ :: t) s =
              Precip.datesOf t s := by simp [Precip.datesOf]
          rw [e2]
          exact ⟨by simp [Precip.updateStation], by simp [Precip.updateStation]⟩
        | some d =>
          by_cases hd : d = ""
          · subst hd
            have e2 : Precip.datesOf (⟨some s, og, some "", ov⟩ :: t) s =
                Precip.datesOf t s := by simp [Precip.datesOf]
            rw [e2]
            exact ⟨by simp [Precip.updateStation], by simp [Precip.updateStation]⟩
          · have e2 : Precip.datesOf (⟨some s, og, some d, ov⟩ :: t) s =
                d :: Precip.datesOf t s := by simp [Precip.datesOf, hd]
            rw [e2, List.foldl_cons, List.foldl_cons]
            exact ⟨by simp [Precip.updateStation, hd],
              by simp [Precip.updateStation, hd]⟩
      · obtain ⟨ihf, ihl⟩ := ih (Precip.foldFeature m ⟨some s, og, ofd, ov⟩)
        have hsid : (Precip.foldFeature m ⟨some s, og, ofd, ov⟩) sid = m sid := by
          simp only [Precip.foldFeature]
          rw [if_neg (fun e => hs e.symm)]
        have h2 : Precip.datesOf (⟨some s, og, ofd, ov⟩ :: t) sid =
            Precip.datesOf t sid := by
          cases ofd <;> simp [Precip.datesOf, hs]
        rw [ihf, ihl, hsid, h2]
        exact ⟨rfl, rfl⟩

/-- C9: after all observations are folded from a fresh map, the first-seen
date of a station equals the lexicographically smallest nonempty `from`
string among its observations (plain string comparison) and the last-seen
date the lexicographically largest; both remain None when no observation
carries a nonempty `from`. -/
theorem C9_first_last_lexicographic_string_order
    (l : List Precip.Obs) (sid : String) :
    (((Precip.foldPage (fun _ => Precip.defaultInfo) l) sid).first_precipitation_date
        = none ↔ Precip.datesOf l sid = []) ∧
    (((Precip.foldPage (fun _ => Precip.defaultInfo) l) sid).last_precipitation_date
        = none ↔ Precip.datesOf l sid = []) ∧
    (∀ d, ((Precip.foldPage (fun _ => Precip.defaultInfo) l) sid).first_precipitation_date
        = some d → d ∈ Precip.datesOf l sid ∧ ∀ e ∈ Precip.datesOf l sid, d ≤ e) ∧
    (∀ d, ((Precip.foldPage (fun _ => Precip.defaultInfo) l) sid).last_precipitation_date
        = some d → d ∈ Precip.datesOf l sid ∧ ∀ e ∈ Precip.datesOf l sid, e ≤ d) := by
  obtain ⟨hf, hl⟩ := foldPage_first_last sid l (fun _ => Precip.defaultInfo)
  have hds := datesOf_ne_empty sid l
  have hcur : ∀ c : String,
      ((fun _ => Precip.defaultInfo) sid).first_precipitation_date = some c → c ≠ "" := by
    intro c hc
    exact absurd hc (by simp [Precip.defaultInfo])
  refine ⟨?_, ?_, ?_, ?_⟩
  · rw [hf]
    rw [foldl_firstStep_none]
    simp [Precip.defaultInfo]
  · rw [hl]
    rw [foldl_lastStep_none]
    simp [Precip.defaultInfo]
  · intro d hd
    rw [hf] at hd
    obtain ⟨hmem, hle, -⟩ := foldl_firstStep_min (Precip.datesOf l sid) none hds
      (fun c hc => absurd hc (by simp)) d hd
    refine ⟨?_, hle⟩
    rcases hmem with h | h
    · exact h
    · exact absurd h (by simp)
  · intro d hd
    rw [hl] at hd
    obtain ⟨hmem, hle, -⟩ := foldl_lastStep_max (Precip.datesOf l sid) none hds
      (fun c hc => absurd hc (by simp)) d hd
    refine ⟨?_, hle⟩
    rcases hmem with h | h
    · exact h
    · exact absurd h (by simp)

/-- Witness for C9 on a single dated observation. -/
theorem C9_first_last_lexicographic_string_order_witness :
    "2020-03-04T00:00+02:00" ∈ Precip.datesOf [Precip.c9Obs] "s" ∧
    ∀ e ∈ Precip.datesOf [Precip.c9Obs] "s", "2020-03-04T00:00+02:00" ≤ e :=
  (C9_first_last_lexicographic_string_order [Precip.c9Obs] "s").2.2.1
    "2020-03-04T00:00+02:00" (by decide)

/-- A fold that appends per element flattens the per-element lists. -/
theorem foldl_extend {α β : Type} (step : List α → β → List α) (f : β → List α)
    (hstep : ∀ acc x, step acc x = acc ++ f x) :
    ∀ (l : List β) (acc : List α),
      l.foldl step acc = acc ++ (l.map f).flatten := by
  intro l
  induction l with
  | nil => intro acc; simp
  | cons x t ih =>
    intro acc
    rw [List.foldl_cons, hstep, ih]
    simp

/-- The per-month feature fold of the wind collection appends exactly the
records of the non-null-valued features. -/
theorem wind_features_foldl (sid name : String) (fl : List WindCollect.Feature) :
    ∀ acc : List WindCollect.WindRec,
      fl.foldl (fun acc2 feature =>
        match feature.value with
        | some v => acc2 ++ [⟨feature.fromDate, sid, name, some v⟩]
        | none => acc2) acc =
      acc ++ fl.filterMap (fun feature =>
        feature.value.map (fun v =>
          (⟨feature.fromDate, sid, name, some v⟩ : WindCollect.WindRec))) := by
  induction fl with
  | nil => intro acc; simp
  | cons f t ih =>
    intro acc
    obtain ⟨fd, fv⟩ := f
    rw [List.foldl_cons]
    cases fv with
    | none => simpa [List.filterMap_cons] using ih acc
    | some v => simp [List.filterMap_cons, ih]

/-- The wind collection equals its declarative normal form. -/
theorem collect_wind_data_eq_spec (fetch : String → Nat → List WindCollect.Feature)
    (stations : List (String × String)) :
    WindCollect.collect_wind_data fetch stations =
      WindCollect.collect_wind_data_spec fetch stations := by
  rw [WindCollect.collect_wind_data, WindCollect.collect_wind_data_spec]
  rw [foldl_extend _
    (fun st => ((List.range' 1 12).map (fun month =>
      (fetch st.1 month).filterMap (fun feature =>
        feature.value.map (fun v =>
          (⟨feature.fromDate, st.1, st.2, some v⟩ : WindCollect.WindRec))))).flatten)
    (fun all_data st => foldl_extend _
      (fun month => (fetch st.1 month).filterMap (fun feature =>
        feature.value.map (fun v =>
          (⟨feature.fromDate, st.1, st.2, some v⟩ : WindCollect.WindRec))))
      (fun acc month => wind_features_foldl st.1 st.2 (fetch st.1 month) acc)
      (List.range' 1 12) all_data)
    stations []]
  simp

/-- The per-month feature fold of the sunshine collection appends exactly
the records of the non-null-valued features. -/
theorem sun_features_foldl (sid name : String) (fl : List SunCollect.Feature) :
    ∀ acc : List SunCollect.SunRec,
      fl.foldl (fun acc2 feature =>
        match feature.value with
        | some v => acc2 ++ [⟨feature.fromDate, sid, name, some v⟩]
        | none => acc2) acc =
      acc ++ fl.filterMap (fun feature =>
        feature.value.map (fun v =>
          (⟨feature.fromDate, sid, name, some v⟩ : SunCollect.SunRec))) := by
  induction fl with
  | nil => intro acc; simp
  | cons f t ih =>
    intro acc
    obtain ⟨fd, fv⟩ := f
    rw [List.foldl_cons]
    cases fv with
    | none => simpa [List.filterMap_cons] using ih acc
    | some v => simp [List.filterMap_cons, ih]

/-- The sunshine collection equals its declarative normal form. -/
theorem collect_sunshine_data_eq_spec (fetch : String → Nat → List SunCollect.Feature)
    (stations : List (String × String)) :
    SunCollect.collect_sunshine_data fetch stations =
      SunCollect.collect_sunshine_data_spec fetch stations := by
  rw [SunCollect.collect_sunshine_data, SunCollect.collect_sunshine_data_spec]
  rw [foldl_extend _
    (fun st => ((List.range' 1 12).map (fun month =>
      (fetch st.1 month).filterMap (fun feature =>
        feature.value.map (fun v =>
          (⟨feature.fromDate, st.1, st.2, some v⟩ : SunCollect.SunRec))))).flatten)
    (fun all_data st => foldl_extend _
      (fun month => (fetch st.1 month).filterMap (fun feature =>
        feature.value.map (fun v =>
          (⟨feature.fromDate, st.1, st.2, some v⟩ : SunCollect.SunRec))))
      (fun acc month => sun_features_foldl st.1 st.2 (fetch st.1 month) acc)
      (List.range' 1 12) all_data)
    stations []]
  simp

/-- Dropping null-valued features before collection changes nothing
(wind). -/
theorem filterMap_value_filter_wind (sid name : String)
    (fl : List WindCollect.Feature) :
    (fl.filter (fun f => f.value.isSome)).filterMap (fun feature =>
      feature.value.map (fun v =>
        (⟨feature.fromDate, sid, name, some v⟩ : WindCollect.WindRec))) =
    fl.filterMap (fun feature =>
      feature.value.map (fun v =>
        (⟨feature.fromDate, sid, name, some v⟩ : WindCollect.WindRec))) := by
  induction fl with
  | nil => rfl
  | cons f t ih =>
    obtain ⟨fd, fv⟩ := f
    cases fv with
    | none => simpa [List.filter_cons, List.filterMap_cons] using ih
    | some v => simp [List.filter_cons, List.filterMap_cons, ih]

/-- Dropping null-valued features before collection changes nothing
(sunshine). -/
theorem filterMap_value_filter_sun (sid name : String)
    (fl : List SunCollect.Feature) :
    (fl.filter (fun f => f.value.isSome)).filterMap (fun feature =>
      feature.value.map (fun v =>
        (⟨feature.fromDate, sid, name, some v⟩ : SunCollect.SunRec))) =
    fl.filterMap (fun feature =>
      feature.value.map (fun v =>
        (⟨feature.fromDate, sid, name, some v⟩ : SunCollect.SunRec))) := by
  induction fl with
  | nil => rfl
  | cons f t ih =>
    obtain ⟨fd, fv⟩ := f
    cases fv with
    | none => simpa [List.filter_cons, List.filterMap_cons] using ih
    | some v => simp [List.filter_cons, List.filterMap_cons, ih]

/-- C10: in the yearly collection scripts, every record in the returned
list carries a non-None measurement value; a null-valued observation is
excluded from the output entirely — the collection equals its
filterMap normal form, and removing the null-valued features from the
input changes nothing — unlike the aggregator, which counts null
observations. -/
theorem C10_null_values_excluded_from_collections :
    (∀ (fetch : String → Nat → List WindCollect.Feature)
        (stations : List (String × String)),
      WindCollect.collect_wind_data fetch stations =
        WindCollect.collect_wind_data_spec fetch stations ∧
      (∀ r ∈ WindCollect.collect_wind_data fetch stations,
        r.mean_wind_speed ≠ none) ∧
      WindCollect.collect_wind_data (fun sid month =>
          (fetch sid month).filter (fun f => f.value.isSome)) stations =
        WindCollect.collect_wind_data fetch stations) ∧
    (∀ (fetch : String → Nat → List SunCollect.Feature)
        (stations : List (String × String)),
      SunCollect.collect_sunshine_data fetch stations =
        SunCollect.collect_sunshine_data_spec fetch stations ∧
      (∀ r ∈ SunCollect.collect_sunshine_data fetch stations,
        r.bright_sunshine ≠ none) ∧
      SunCollect.collect_sunshine_data (fun sid month =>
          (fetch sid month).filter (fun f => f.value.isSome)) stations =
        SunCollect.collect_sunshine_data fetch stations) := by
  constructor
  · intro fetch stations
    refine ⟨collect_wind_data_eq_spec fetch stations, ?_, ?_⟩
    · intro r hr
      rw [collect_wind_data_eq_spec, WindCollect.collect_wind_data_spec] at hr
      rw [List.mem_flatten] at hr
      obtain ⟨l1, hl1, hrl1⟩ := hr
      rw [List.mem_map] at hl1
      obtain ⟨st, -, rfl⟩ := hl1
      rw [List.mem_flatten] at hrl1
      obtain ⟨l2, hl2, hrl2⟩ := hrl1
      rw [List.mem_map] at hl2
      obtain ⟨month, -, rfl⟩ := hl2
      rw [List.mem_filterMap] at hrl2
      obtain ⟨feature, -, hfr⟩ := hrl2
      obtain ⟨v, -, rfl⟩ := Option.map_eq_some'.mp hfr
      simp
    · rw [collect_wind_data_eq_spec, collect_wind_data_eq_spec]
      simp only [WindCollect.collect_wind_data_spec]
      simp [filterMap_value_filter_wind]
  · intro fetch stations
    refine ⟨collect_sunshine_data_eq_spec fetch stations, ?_, ?_⟩
    · intro r hr
      rw [collect_sunshine_data_eq_spec, SunCollect.collect_sunshine_data_spec] at hr
      rw [List.mem_flatten] at hr
      obtain ⟨l1, hl1, hrl1⟩ := hr
      rw [List.mem_map] at hl1
      obtain ⟨st, -, rfl⟩ := hl1
      rw [List.mem_flatten] at hrl1
      obtain ⟨l2, hl2, hrl2⟩ := hrl1
      rw [List.mem_map] at hl2
      obtain ⟨month, -, rfl⟩ := hl2
      rw [List.mem_filterMap] at hrl2
      obtain ⟨feature, -, hfr⟩ := hrl2
      obtain ⟨v, -, rfl⟩ := Option.map_eq_some'.mp hfr
      simp
    · rw [collect_sunshine_data_eq_spec, collect_sunshine_data_eq_spec]
      simp only [SunCollect.collect_sunshine_data_spec]
      simp [filterMap_value_filter_sun]

/-- Witness for C10 on a one-station fetch returning one dated feature in
January and a null-valued feature that produces no record. -/
theorem C10_null_values_excluded_from_collections_witness :
    (⟨none, "06030", "Aalborg", some 5⟩ : WindCollect.WindRec).mean_wind_speed ≠ none ∧
    WindCollect.collect_wind_data
        (fun _ month => if month = 1 then [⟨none, some 5⟩, ⟨none, none⟩] else [])
        [("06030", "Aalborg")] =
      WindCollect.collect_wind_data_spec
        (fun _ month => if month = 1 then [⟨none, some 5⟩, ⟨none, none⟩] else [])
        [("06030", "Aalborg")] :=
  ⟨(C10_null_values_excluded_from_collections.1
      (fun _ month => if month = 1 then [⟨none, some 5⟩, ⟨none, none⟩] else [])
      [("06030", "Aalborg")]).2.1 ⟨none, "06030", "Aalborg", some 5⟩ (by decide),
    (C10_null_values_excluded_from_collections.1
      (fun _ month => if month = 1 then [⟨none, some 5⟩, ⟨none, none⟩] else [])
      [("06030", "Aalborg")]).1⟩
